import Mathlib

set_option maxRecDepth 8192

/-!
Verification development for the ProDOS8Emu core: a shallow embedding of the
Apple II memory model with Language-Card bank switching, the 65C02 JSR trap,
the ProDOS MLI dispatcher and the filing calls, translated from the C++
sources (src/src/apple2mem.cpp, src/src/cpu65c02.cpp, src/src/mli.cpp,
src/src/mli_dispatch.cpp, src/src/mli_filing.cpp, src/src/mli_system.cpp,
src/src/path.cpp, src/include/prodos8emu/access_byte.hpp).

Machine integers are modelled as Nat with explicit reductions: u8 / u16 mirror
the uint8_t / uint16_t casts of the C++ code.
-/

namespace P8Emu


/-- Reduction of a Nat to the value of a C++ uint8_t holding it. -/
def u8 (n : Nat) : Nat := n % 256

/-- Reduction of a Nat to the value of a C++ uint16_t holding it. -/
def u16 (n : Nat) : Nat := n % 65536

/-! ## Memory model (src/src/apple2mem.cpp, src/include/prodos8emu/apple2mem.hpp)

Apple2Memory owns the storage arrays and the Language-Card flags.  The C++
object also caches two bank-pointer arrays, m_banks (write view) and
m_constBanks (read view), recomputed by updateBanks() whenever a flag that
updateBanks reads changes; since updateBanks reads only m_lcReadEnabled and
m_lcBank1, and every mutation of those two flags triggers updateBanks, the
cached arrays are always equal to the pure function of the current flag
values embedded below as updateBanksView.

Each storage array has element type uint8_t; sliceGet applies u8 to mirror
that element type, so storage functions holding arbitrary Nat values read
back as bytes. -/

structure Apple2Memory where
  /-- m_mainRam: 16 banks of 4096 bytes, indexed (bank, offset). -/
  mainRam : Nat → Nat → Nat
  /-- m_lcBank2: Language-Card bank 2 storage for bank index 13. -/
  lcBank2 : Nat → Nat
  /-- m_romArea: 3 x 4096 bytes backing banks 13..15 when LC read is off. -/
  romArea : Nat → Nat
  /-- m_writeSink: 3 x 4096 bytes, declared in the header for absorbing
  writes while LC write is disabled (updateBanks never maps it). -/
  writeSink : Nat → Nat
  lcReadEnabled : Bool
  lcWriteEnabled : Bool
  lcBank1 : Bool
  lcWritePrequalified : Bool

/-- Identification of the storage array (and base offset within it) that a
bank pointer of the C++ object points into. -/
inductive Slice where
  | mainRamSlice (bank : Nat)
  | lcBank2Slice
  | romSlice (base : Nat)
  | sinkSlice (base : Nat)

/-- Apple2Memory::updateBanks, as the pure function from the flags it reads
to the slice each of the 16 bank pointers is set to.  Both m_banks and
m_constBanks receive exactly the same assignments in the source. -/
def updateBanksView (m : Apple2Memory) (bank : Nat) : Slice :=
  if bank ≤ 12 then
    Slice.mainRamSlice bank
  else if m.lcReadEnabled then
    if bank = 13 then
      (if m.lcBank1 then Slice.mainRamSlice 13 else Slice.lcBank2Slice)
    else
      Slice.mainRamSlice bank
  else
    Slice.romSlice ((bank - 13) * 4096)

/-- Apple2Memory::constBanks (the read view): identical to updateBanksView. -/
def constBanksView (m : Apple2Memory) : Nat → Slice := updateBanksView m

/-- Apple2Memory::banks (the write view): the source assigns m_banks the same
slices as m_constBanks in every branch of updateBanks. -/
def banksView (m : Apple2Memory) : Nat → Slice := updateBanksView m

/-- Byte fetched from a slice at an offset (array elements are uint8_t). -/
def sliceGet (m : Apple2Memory) : Slice → Nat → Nat
  | Slice.mainRamSlice b, off => u8 (m.mainRam b off)
  | Slice.lcBank2Slice, off => u8 (m.lcBank2 off)
  | Slice.romSlice base, off => u8 (m.romArea (base + off))
  | Slice.sinkSlice base, off => u8 (m.writeSink (base + off))

/-- Store of a byte into a slice at an offset. -/
def sliceSet (m : Apple2Memory) : Slice → Nat → Nat → Apple2Memory
  | Slice.mainRamSlice b, off, v =>
      { m with mainRam := fun b2 o2 =>
          if b2 = b ∧ o2 = off then v else m.mainRam b2 o2 }
  | Slice.lcBank2Slice, off, v =>
      { m with lcBank2 := fun o2 => if o2 = off then v else m.lcBank2 o2 }
  | Slice.romSlice base, off, v =>
      { m with romArea := fun o2 =>
          if o2 = base + off then v else m.romArea o2 }
  | Slice.sinkSlice base, off, v =>
      { m with writeSink := fun o2 =>
          if o2 = base + off then v else m.writeSink o2 }

/-- read_u8 (memory.hpp) against the read view: bank = addr >> 12,
offset = addr & 0x0FFF. -/
def memReadU8 (m : Apple2Memory) (addr : Nat) : Nat :=
  sliceGet m (constBanksView m (u16 addr / 4096)) (u16 addr % 4096)

/-- write_u8 (memory.hpp) against the write view. -/
def memWriteU8 (m : Apple2Memory) (addr v : Nat) : Apple2Memory :=
  sliceSet m (banksView m (u16 addr / 4096)) (u16 addr % 4096) (u8 v)

/-- Apple2Memory::setLCReadEnabled: guard, assign, recompute views (views are
derived here, so only the flag assignment remains). -/
def setLCReadEnabled (m : Apple2Memory) (enable : Bool) : Apple2Memory :=
  if m.lcReadEnabled ≠ enable then { m with lcReadEnabled := enable } else m

/-- Apple2Memory::setLCWriteEnabled: assigns the flag WITHOUT calling
updateBanks (the source at apple2mem.cpp lines 33-35 has no updateBanks
call; updateBanks never reads this flag anyway). -/
def setLCWriteEnabled (m : Apple2Memory) (enable : Bool) : Apple2Memory :=
  { m with lcWriteEnabled := enable }

/-- Apple2Memory::setLCBank1. -/
def setLCBank1 (m : Apple2Memory) (bank1 : Bool) : Apple2Memory :=
  if m.lcBank1 ≠ bank1 then { m with lcBank1 := bank1 } else m

/-- Apple2Memory::applySoftSwitch, translated line by line from
apple2mem.cpp lines 76-115. -/
def applySoftSwitch (m : Apple2Memory) (addr : Nat) (isRead : Bool) :
    Bool × Apple2Memory :=
  if addr < 0xC080 ∨ 0xC08F < addr then
    (false, m)
  else
    let offset := addr % 16
    let bank1 : Bool := offset &&& 0x08 ≠ 0
    let cmd := offset &&& 0x03
    let m1 := setLCBank1 m bank1
    let wantsWriteEnable : Bool := cmd = 1 ∨ cmd = 3
    let wantsLCRead : Bool := cmd = 0 ∨ cmd = 3
    let m2 :=
      if ¬ isRead then
        setLCWriteEnabled { m1 with lcWritePrequalified := false } false
      else if wantsWriteEnable then
        if m1.lcWritePrequalified then
          { setLCWriteEnabled m1 true with lcWritePrequalified := false }
        else
          setLCWriteEnabled { m1 with lcWritePrequalified := true } false
      else
        setLCWriteEnabled { m1 with lcWritePrequalified := false } false
    (true, setLCReadEnabled m2 wantsLCRead)

/-- Freshly constructed Apple2Memory: all storage zeroed, LC read and write
disabled, bank 1 selected, latch clear (apple2mem.cpp constructor). -/
def freshApple2Memory : Apple2Memory where
  mainRam := fun _ _ => 0
  lcBank2 := fun _ => 0
  romArea := fun _ => 0
  writeSink := fun _ => 0
  lcReadEnabled := false
  lcWriteEnabled := false
  lcBank1 := true
  lcWritePrequalified := false

/-- CPU65C02::read8 (cpu65c02.cpp lines 413-419): soft-switch intercept for
$C080..$C08F yields 0, otherwise a read through the read view. -/
def cpuRead8 (m : Apple2Memory) (addr : Nat) : Nat × Apple2Memory :=
  if 0xC080 ≤ addr ∧ addr ≤ 0xC08F then
    (0, (applySoftSwitch m addr true).2)
  else
    (memReadU8 m addr, m)

/-- CPU65C02::write8 (cpu65c02.cpp lines 421-427): soft-switch intercept
drops the value, otherwise a write through the write view. -/
def cpuWrite8 (m : Apple2Memory) (addr v : Nat) : Apple2Memory :=
  if 0xC080 ≤ addr ∧ addr ≤ 0xC08F then
    (applySoftSwitch m addr false).2
  else
    memWriteU8 m addr v

/-! C1 scenario states: fresh memory; apply_soft_switch($C081, read) twice;
bus write of 0x5A to $D000; LC read disabled then re-enabled; bus read of
$D000. -/

def c1s1 : Apple2Memory := (applySoftSwitch freshApple2Memory 0xC081 true).2

def c1s2 : Apple2Memory := (applySoftSwitch c1s1 0xC081 true).2

def c1s3 : Apple2Memory := cpuWrite8 c1s2 0xD000 0x5A

def c1s4 : Apple2Memory := setLCReadEnabled c1s3 false

def c1s5 : Apple2Memory := setLCReadEnabled c1s4 true

/-! ## CPU (src/src/cpu65c02.cpp): state, flag helpers, PC ring, JSR

The MLI dispatcher that the trap invokes mutates the MLI context and the
memory; it is taken as a parameter of type
Nat → Nat → Apple2Memory → σ → Nat × Apple2Memory × σ over an abstract
context type σ, so the trap theorems hold for every dispatcher.  The debug
MLI log of the source (active only when a log stream is attached) is not
modelled; the embedding corresponds to the log-detached configuration. -/

structure CPURegs where
  pc : Nat
  a : Nat
  x : Nat
  y : Nat
  sp : Nat
  p : Nat

/-- PC-change ring buffer of CPU65C02 (m_pcRingFrom / To / Count, index),
size 100, entry counts are uint32. -/
structure PCRing where
  ringFrom : Nat → Nat
  ringTo : Nat → Nat
  ringCount : Nat → Nat
  ringIndex : Nat

structure CPUState where
  r : CPURegs
  mem : Apple2Memory
  ring : PCRing

def FLAG_C : Nat := 0x01

def FLAG_Z : Nat := 0x02

def FLAG_D : Nat := 0x08

def FLAG_U : Nat := 0x20

def FLAG_N : Nat := 0x80

/-- CPU65C02::setFlag: set or clear a mask in P, then force the always-1
bit (FLAG_U). -/
def setFlag (p mask : Nat) (v : Bool) : Nat :=
  (if v then p ||| mask else p &&& (0xFF ^^^ mask)) ||| FLAG_U

/-- CPU65C02::setNZ: Z from (v = 0), then N from bit 7 of v. -/
def setNZ (p v : Nat) : Nat :=
  setFlag (setFlag p FLAG_Z (decide (v = 0))) FLAG_N (decide (v &&& 0x80 ≠ 0))

/-- CPU65C02::getFlag. -/
def getFlag (p mask : Nat) : Bool := decide (p &&& mask ≠ 0)

/-- CPU65C02::recordPCChange (cpu65c02.cpp lines 389-411). -/
def recordPCChange (s : CPUState) (fromPC toPC : Nat) : CPUState :=
  if 0xF800 ≤ fromPC ∧ 0xF800 ≤ toPC then s
  else
    let g := s.ring
    let prevIndex := (g.ringIndex + 100 - 1) % 100
    if (0 < g.ringIndex ∨ g.ringFrom (100 - 1) ≠ 0) ∧
        g.ringFrom prevIndex = fromPC ∧ g.ringTo prevIndex = toPC then
      { s with ring := { g with ringCount := fun i =>
          (if i = prevIndex then (g.ringCount prevIndex + 1) % 4294967296
            else g.ringCount i) } }
    else
      { s with ring :=
        { ringFrom := fun i => if i = g.ringIndex then fromPC else g.ringFrom i
          ringTo := fun i => if i = g.ringIndex then toPC else g.ringTo i
          ringCount := fun i => if i = g.ringIndex then 1 else g.ringCount i
          ringIndex := (g.ringIndex + 1) % 100 } }

/-- CPU-state-threading wrapper of CPU65C02::read8 (memory may change via
the soft-switch intercept). -/
def csRead8 (s : CPUState) (addr : Nat) : Nat × CPUState :=
  let t := cpuRead8 s.mem addr
  (t.1, { s with mem := t.2 })

/-- CPU65C02::read16: two read8 calls, make_u16(lo, hi). -/
def csRead16 (s : CPUState) (addr : Nat) : Nat × CPUState :=
  let lo := csRead8 s addr
  let hi := csRead8 lo.2 (u16 (addr + 1))
  (lo.1 ||| (hi.1 <<< 8), hi.2)

/-- CPU65C02::write8 wrapper. -/
def csWrite8 (s : CPUState) (addr v : Nat) : CPUState :=
  { s with mem := cpuWrite8 s.mem addr v }

/-- CPU65C02::push8: write at $0100 | sp, then decrement sp (uint8 wrap:
sp - 1 is modelled as sp + 255 mod 256). -/
def push8 (s : CPUState) (v : Nat) : CPUState :=
  let s1 := csWrite8 s (0x0100 ||| u8 s.r.sp) v
  { s1 with r := { s1.r with sp := u8 (s1.r.sp + 255) } }

/-- CPU65C02::push16: high byte first, then low byte. -/
def push16 (s : CPUState) (v : Nat) : CPUState :=
  push8 (push8 s (u8 (v >>> 8))) (u8 v)

/-- Reads performed by the MLI trap: one call-number byte at PC and a
little-endian word at PC+1, threading soft-switch side effects. -/
def trapReads (s : CPUState) : Nat × Nat × CPUState :=
  let cn := csRead8 s s.r.pc
  let pb := csRead16 cn.2 (u16 (s.r.pc + 1))
  (cn.1, pb.1, pb.2)

/-- Normal JSR path (cpu65c02.cpp lines 758-765): push PC-1 (uint16 wrap
modelled as PC + 65535 mod 65536), jump, record the PC change from the JSR
instruction address. -/
def jsrNormal {σ : Type} (s : CPUState) (target : Nat) (mli : Option σ) :
    Nat × CPUState × Option σ :=
  let ret := u16 (s.r.pc + 65535)
  let jsrPC := u16 (ret + 65534)
  let s1 := push16 s ret
  let s2 := { s1 with r := { s1.r with pc := u16 target } }
  (6, recordPCChange s2 jsrPC (u16 target), mli)

/-- CPU65C02::jsr_abs (cpu65c02.cpp lines 696-766), with the MLI dispatcher
and its context abstracted; the debug-log branch (log detached) is omitted. -/
def jsrAbs {σ : Type}
    (dispatch : Nat → Nat → Apple2Memory → σ → Nat × Apple2Memory × σ)
    (mli : Option σ) (s : CPUState) (target : Nat) :
    Nat × CPUState × Option σ :=
  match mli with
  | some ctx =>
      if target = 0xBF00 then
        let r0 := trapReads s
        let returnPC := u16 (s.r.pc + 3)
        let s3 := recordPCChange
          { r0.2.2 with r := { r0.2.2.r with pc := returnPC } } 0xBF00 returnPC
        let res := dispatch r0.1 r0.2.1 s3.mem ctx
        let err := u8 res.1
        let p1 := setFlag s3.r.p FLAG_C (decide (err ≠ 0))
        let p2 := setNZ p1 err
        let p3 := setFlag p2 FLAG_D false
        (6, { s3 with mem := res.2.1, r := { s3.r with a := err, p := p3 } },
          some res.2.2)
      else jsrNormal s target (some ctx)
  | none => jsrNormal s target none

/-- Outcome of a normal (non-trap) JSR: the context is untouched, PC jumps
to the target, SP drops by two, A X Y P are unchanged, and the stack holds
the two bytes of PC-1 (high byte at $0100+SP, low byte below it). -/
def NormalJsrOutcome {σ : Type} (s : CPUState) (target : Nat)
    (mliOpt : Option σ) (t : Nat × CPUState × Option σ) : Prop :=
  t.2.2 = mliOpt ∧
  t.2.1.r.pc = u16 target ∧
  t.2.1.r.sp = u8 (s.r.sp + 254) ∧
  t.2.1.r.a = s.r.a ∧ t.2.1.r.x = s.r.x ∧ t.2.1.r.y = s.r.y ∧
  t.2.1.r.p = s.r.p ∧
  memReadU8 t.2.1.mem (0x0100 + u8 s.r.sp) = u8 (u16 (s.r.pc + 65535) >>> 8) ∧
  memReadU8 t.2.1.mem (0x0100 + u8 (s.r.sp + 255)) = u8 (u16 (s.r.pc + 65535))

/-- Memory handed to the MLI dispatcher by the trap: the memory after the
three inline reads (whose soft-switch side effects are threaded) and the
PC-ring update. -/
def trapDispatchMem (s : CPUState) : Apple2Memory :=
  (recordPCChange
    { (trapReads s).2.2 with
      r := { (trapReads s).2.2.r with pc := u16 (s.r.pc + 3) } }
    0xBF00 (u16 (s.r.pc + 3))).mem

/-- Concrete CPU state for the C2 witness. -/
def cpu0 : CPUState where
  r := { pc := 0x2000, a := 0, x := 0, y := 0, sp := 0xFF, p := 0x24 }
  mem := freshApple2Memory
  ring := { ringFrom := fun _ => 0, ringTo := fun _ => 0,
            ringCount := fun _ => 0, ringIndex := 0 }

/-- Concrete dispatcher for the C2 witness: returns FILE_NOT_FOUND ($46). -/
def dispatch0 : Nat → Nat → Apple2Memory → Unit → Nat × Apple2Memory × Unit :=
  fun _ _ m _ => (0x46, m, ())

/-! ## MLI memory (src/include/prodos8emu/memory.hpp)

The MLI handlers receive the bank-pointer array banks() of the memory model
and perform all accesses through read_u8 / write_u8 on it; during one MLI
call the bank mapping is fixed, so the memory a handler sees is faithfully
modelled as a flat function from 16-bit addresses to bytes. -/

def Mem : Type := Nat → Nat

/-- read_u8: array elements are uint8_t; addresses are uint16_t. -/
def readU8 (mem : Mem) (addr : Nat) : Nat := u8 (mem (u16 addr))

/-- write_u8. -/
def writeU8 (mem : Mem) (addr v : Nat) : Mem :=
  fun x => if x = u16 addr then u8 v else mem x

/-- read_u16_le: lo | (hi << 8), address wraps at 0xFFFF. -/
def readU16 (mem : Mem) (addr : Nat) : Nat :=
  readU8 mem addr ||| (readU8 mem (u16 (addr + 1)) <<< 8)

/-- read_u24_le. -/
def readU24 (mem : Mem) (addr : Nat) : Nat :=
  readU8 mem addr ||| (readU8 mem (u16 (addr + 1)) <<< 8) |||
    (readU8 mem (u16 (addr + 2)) <<< 16)

/-- write_u16_le: low byte then high byte. -/
def writeU16 (mem : Mem) (addr v : Nat) : Mem :=
  writeU8 (writeU8 mem addr (v &&& 0xFF)) (u16 (addr + 1)) ((v >>> 8) &&& 0xFF)

/-! ## Path module (src/src/path.cpp) -/

/-- normalizeChar: clear the high bit, uppercase a-z. -/
def normalizeChar (c : Nat) : Nat :=
  let n := c % 128
  if 97 ≤ n ∧ n ≤ 122 then n - 32 else n

/-- readNormalizedCountedString: length byte, then that many normalized
characters (addresses wrap at 0xFFFF). -/
def readNormalizedCountedString (mem : Mem) (addr : Nat) : List Nat :=
  (List.range (readU8 mem addr)).map fun i =>
    normalizeChar (readU8 mem (u16 (addr + 1 + i)))

/-- isValidComponent: length 1-15, first char A-Z, rest A-Z 0-9 or dot
(character codes: A=65, Z=90, 0=48, 9=57, dot=46). -/
def isValidComponent (comp : List Nat) : Bool :=
  if comp.isEmpty || comp.length > 15 then false
  else
    let first := comp.headD 0
    if first < 65 || 90 < first then false
    else comp.tail.all fun ch =>
      decide (65 ≤ ch ∧ ch ≤ 90) || decide (48 ≤ ch ∧ ch ≤ 57) || ch == 46

/-- Tokens produced by the istringstream + getline('/') loop of
isValidPathname: the pieces between slashes, except that a trailing slash
produces no final empty token (getline at end-of-stream fails), and the
empty string produces no token at all.  Slash is character code 47. -/
def cppGetlineTokens : List Nat → List (List Nat)
  | [] => []
  | c :: cs =>
      if c = 47 then
        [] :: cppGetlineTokens cs
      else
        match cppGetlineTokens cs with
        | [] => [[c]]
        | t :: ts => (c :: t) :: ts

/-- Loop body of isValidPathname over the getline tokens, with the
first-component flag; p0abs records whether pathname[0] is a slash. -/
def ivpLoop (p0abs : Bool) : List (List Nat) → Bool → Bool
  | [], _ => true
  | comp :: rest, first =>
      if comp.isEmpty then
        if first && p0abs then ivpLoop p0abs rest false
        else if !first then false
        else ivpLoop p0abs rest false
      else
        if !(isValidComponent comp) then false
        else ivpLoop p0abs rest false

/-- isValidPathname (path.cpp lines 43-76). -/
def isValidPathname (pathname : List Nat) (maxLength : Nat) : Bool :=
  if pathname.isEmpty || pathname.length > maxLength then false
  else ivpLoop (pathname.headD 0 == 47) (cppGetlineTokens pathname) true

/-- resolveFullPath (path.cpp lines 78-99); returns the empty string when
the result would exceed 128 characters. -/
def resolveFullPath (pathname pfx : List Nat) : List Nat :=
  let fullPath :=
    if !pathname.isEmpty && pathname.headD 0 == 47 then pathname
    else
      pfx ++
        (if !pfx.isEmpty && pfx.getLastD 0 != 47 && !pathname.isEmpty
          then [47] else []) ++ pathname
  if fullPath.length > 128 then [] else fullPath

/-! ## SET_PREFIX and GET_PREFIX (src/src/mli.cpp)

The context state these two calls touch is only m_prefix; each is embedded
as a function of the current prefix and the memory. -/

/-- MLIContext::setPrefixCall (mli.cpp lines 30-70): returns the error code
and the new prefix. -/
def setPrefixCall (pfx : List Nat) (mem : Mem) (paramBlockAddr : Nat) :
    Nat × List Nat :=
  let paramCount := readU8 mem paramBlockAddr
  if paramCount ≠ 1 then (0x04, pfx)
  else
    let pathnamePtr := readU16 mem (u16 (paramBlockAddr + 1))
    let pathLength := readU8 mem pathnamePtr
    if pathLength > 64 then (0x40, pfx)
    else
      let pathname := readNormalizedCountedString mem pathnamePtr
      if !pathname.isEmpty && pathname.headD 0 != 47 && pfx.isEmpty then
        (0x40, pfx)
      else
        let fullPath := resolveFullPath pathname pfx
        if fullPath.isEmpty then (0x40, pfx)
        else if !(isValidPathname fullPath 64) then (0x40, pfx)
        else (0x00, fullPath)

/-- MLIContext::getPrefixCall (mli.cpp lines 72-90): returns the error code
and the updated memory. -/
def getPrefixCall (pfx : List Nat) (mem : Mem) (paramBlockAddr : Nat) :
    Nat × Mem :=
  let paramCount := readU8 mem paramBlockAddr
  if paramCount ≠ 1 then (0x04, mem)
  else
    let dataBufferPtr := readU16 mem (u16 (paramBlockAddr + 1))
    let mem1 := writeU8 mem dataBufferPtr (u8 pfx.length)
    (0x00, (List.range pfx.length).foldl
      (fun mm i => writeU8 mm (u16 (dataBufferPtr + 1 + i)) (pfx.getD i 0))
      mem1)

/-- Well-formedness of a stored prefix: empty (initial state) or absolute
and accepted by the pathname validator with limit 64. -/
def prefixOK (p : List Nat) : Prop :=
  p = [] ∨ (p.headD 0 = 47 ∧ isValidPathname p 64 = true)

/-- Prefixes reachable from the initial MLI context (m_prefix starts empty;
setPrefixCall is the only assignment to m_prefix in the sources). -/
inductive PrefixReach : List Nat → Prop
  | init : PrefixReach []
  | step (p : List Nat) (mem : Mem) (pb : Nat) :
      PrefixReach p → PrefixReach (setPrefixCall p mem pb).2

/-- Memory for the C9 witness: parameter count 1 at address 0, buffer
pointer $0010. -/
def mem9 : Mem := fun a => if a = 0 then 1 else if a = 1 then 0x10 else 0

/-- Memory for the C7 counterexample: parameter count 1 at address 0,
pathname pointer $0010, and at $0010 a counted string of 63 characters,
four 15-character components of letter C separated by slashes. -/
def mem7 : Mem := fun a =>
  if a = 0 then 1
  else if a = 1 then 0x10
  else if a = 0x10 then 63
  else if 0x11 ≤ a ∧ a ≤ 0x4F then (if (a - 0x11) % 16 = 15 then 47 else 67)
  else 0

/-- Prefix for the C7 counterexample: the absolute path of volume AB. -/
def pfx7 : List Nat := [47, 65, 66]

/-- Input pathname an MLI housekeeping call reads: the counted string at
the pointer stored at parameter-block offset +1, normalized. -/
def spInput (mem : Mem) (pb : Nat) : List Nat :=
  readNormalizedCountedString mem (readU16 mem (u16 (pb + 1)))

/-! ## Open-file table and filing calls (src/src/mli_filing.cpp)

The C++ OpenFile holds a host file descriptor; the embedding attaches the
referenced host file directly as its byte content (hostData) and size
(hostSize), with fstat / pread / pwrite modelled as succeeding host
operations: pwrite extends the file, pread at an offset below the size
returns the byte there.  Host I/O error paths (EACCES, ENOSPC, EIO) are
the environment signalling failure and are outside this model.  For
directories, the synthesized 512-byte blocks are modelled flat: block
count and a byte function over offsets. -/

structure OpenFile where
  mark : Nat
  ioBuffer : Nat
  newlineEnabled : Bool
  newlineMask : Nat
  newlineChar : Nat
  isDirectory : Bool
  hostData : Nat → Nat
  hostSize : Nat
  dirBlockCount : Nat
  dirData : Nat → Nat

def OpenFiles : Type := Nat → Option OpenFile

/-- getFileEof (mli_filing.cpp lines 41-48): host size capped at the
24-bit maximum. -/
def getFileEof (of : OpenFile) : Nat :=
  if of.hostSize > 0xFFFFFF then 0xFFFFFF else of.hostSize

/-- MLIContext::closeCall (mli_filing.cpp lines 712-736): ref_num 0 closes
every file and clears the table (the result of the host close call is
discarded by the source); otherwise closes the one entry. -/
def closeCall (ofs : OpenFiles) (mem : Mem) (paramBlockAddr : Nat) :
    Nat × OpenFiles :=
  let paramCount := readU8 mem paramBlockAddr
  if paramCount ≠ 1 then (0x04, ofs)
  else
    let refNum := readU8 mem (u16 (paramBlockAddr + 1))
    if refNum = 0 then (0x00, fun _ => none)
    else
      match ofs refNum with
      | none => (0x43, ofs)
      | some _ => (0x00, fun r => if r = refNum then none else ofs r)

/-- MLIContext::setMarkCall (mli_filing.cpp lines 764-789). -/
def setMarkCall (ofs : OpenFiles) (mem : Mem) (paramBlockAddr : Nat) :
    Nat × OpenFiles :=
  let paramCount := readU8 mem paramBlockAddr
  if paramCount ≠ 2 then (0x04, ofs)
  else
    let refNum := readU8 mem (u16 (paramBlockAddr + 1))
    let position := readU24 mem (u16 (paramBlockAddr + 2))
    match ofs refNum with
    | none => (0x43, ofs)
    | some of =>
        if position > getFileEof of then (0x4D, ofs)
        else (0x00, fun r =>
          if r = refNum then some { of with mark := position } else ofs r)

/-- Write loop of MLIContext::writeCall (mli_filing.cpp lines 684-706):
the `for (i = 0; i < request; ++i)` loop, carried as recursion on the
remaining iteration count request - i.  One byte per iteration; the guard
skips out once mark exceeds $00FFFFFF, but only AFTER the increment that
pushed it past, so the loop itself can leave mark at $01000000.  pwrite is
modelled as the successful host write: store the byte at offset mark,
extending the size. -/
def writeLoop (mem : Mem) (dataBuf : Nat) (of : OpenFile)
    (i trans : Nat) : Nat → OpenFile × Nat
  | 0 => (of, trans)
  | remaining + 1 =>
      if of.mark > 0xFFFFFF then (of, trans)
      else
        let byte := readU8 mem (u16 (dataBuf + i))
        let of2 : OpenFile :=
          { of with
            hostData := fun o => if o = of.mark then byte else of.hostData o
            hostSize := max of.hostSize (of.mark + 1)
            mark := of.mark + 1 }
        writeLoop mem dataBuf of2 (i + 1) (trans + 1) remaining

/-- MLIContext::writeCall (mli_filing.cpp lines 657-710), host writes
succeeding. -/
def writeCall (ofs : OpenFiles) (mem : Mem) (paramBlockAddr : Nat) :
    Nat × OpenFiles × Mem :=
  let paramCount := readU8 mem paramBlockAddr
  if paramCount ≠ 4 then (0x04, ofs, mem)
  else
    let refNum := readU8 mem (u16 (paramBlockAddr + 1))
    let dataBuf := readU16 mem (u16 (paramBlockAddr + 2))
    let requestCount := readU16 mem (u16 (paramBlockAddr + 4))
    let mem1 := writeU16 mem (u16 (paramBlockAddr + 6)) 0
    match ofs refNum with
    | none => (0x43, ofs, mem1)
    | some of =>
        if of.isDirectory then (0x4E, ofs, mem1)
        else
          let lr := writeLoop mem1 dataBuf of 0 0 requestCount
          (0x00, fun r => (if r = refNum then some lr.1 else ofs r),
            writeU16 mem1 (u16 (paramBlockAddr + 6)) lr.2)

/-- Memory for the C6 SET_MARK step: parameter count 2, ref_num 1,
position $FFFFFF. -/
def memC6a : Mem := fun a =>
  if a = 0 then 2 else if a = 1 then 1
  else if a = 2 then 0xFF else if a = 3 then 0xFF else if a = 4 then 0xFF
  else 0

/-- Memory for the C6 WRITE step: parameter count 4, ref_num 1, data
buffer $0200, request count 1. -/
def memC6b : Mem := fun a =>
  if a = 0 then 4 else if a = 1 then 1
  else if a = 2 then 0 else if a = 3 then 2
  else if a = 4 then 1 else if a = 5 then 0
  else 0

/-- Open file for the C6 failing input: a regular file of host size
$01000000 freshly opened (mark 0), as OPEN produces for such a host file. -/
def ofC6 : OpenFile where
  mark := 0
  ioBuffer := 0
  newlineEnabled := false
  newlineMask := 0
  newlineChar := 0
  isDirectory := false
  hostData := fun _ => 0
  hostSize := 0x1000000
  dirBlockCount := 0
  dirData := fun _ => 0

/-- Open-file table for the C6 failing input: ref_num 1 only. -/
def ofsC6 : OpenFiles := fun r => if r = 1 then some ofC6 else none

/-- Mark stored for a ref_num, 0 when absent (projection helper). -/
def markAt (ofs : OpenFiles) (r : Nat) : Nat :=
  match ofs r with
  | some of => of.mark
  | none => 0

/-- Memory for the C10 witness: parameter count 1 at 0, ref_num 0 at 1. -/
def memC10 : Mem := fun a => if a = 0 then 1 else 0

/-- Read loop of MLIContext::readCall for regular files (mli_filing.cpp
lines 630-651): the `for (i = 0; i < request_count; ++i)` loop, carried as
recursion on the remaining iteration count request - i.  One byte per
iteration via pread at offset mark; since mark < eof <= hostSize in every
iteration that reads, the host read succeeds and returns the byte at mark.
Result: final OpenFile, memory, trans count and error code. -/
def readLoop (eof dataBuf : Nat) (of : OpenFile) (mem : Mem)
    (i trans : Nat) : Nat → OpenFile × Mem × Nat × Nat
  | 0 => (of, mem, trans, 0x00)
  | remaining + 1 =>
      if of.mark ≥ eof then (of, mem, trans, 0x4C)
      else
        if of.newlineEnabled &&
            ((of.hostData of.mark &&& of.newlineMask) ==
              (of.newlineChar &&& of.newlineMask)) then
          ({ of with mark := of.mark + 1 },
            writeU8 mem (u16 (dataBuf + i)) (of.hostData of.mark),
            trans + 1, 0x00)
        else readLoop eof dataBuf { of with mark := of.mark + 1 }
          (writeU8 mem (u16 (dataBuf + i)) (of.hostData of.mark))
          (i + 1) (trans + 1) remaining

/-- Byte copy of the directory branch of readCall (mli_filing.cpp lines
588-603): the nested block/offset loop copies, in increasing order, the
byte at flat directory offset mark+j to dataBuf+j for j below the number
of bytes to read (block index mark/512 and offset mark%512 address the
flat content at exactly mark). -/
def dirCopy (dirData : Nat → Nat) (dataBuf mark0 : Nat) (mem : Mem) :
    Nat → Mem
  | 0 => mem
  | k + 1 => writeU8 (dirCopy dirData dataBuf mark0 mem k)
      (u16 (dataBuf + k)) (dirData (mark0 + k))

/-- MLIContext::readCall (mli_filing.cpp lines 553-655), host reads
succeeding. -/
def readCall (ofs : OpenFiles) (mem : Mem) (paramBlockAddr : Nat) :
    Nat × OpenFiles × Mem :=
  let paramCount := readU8 mem paramBlockAddr
  if paramCount ≠ 4 then (0x04, ofs, mem)
  else
    let refNum := readU8 mem (u16 (paramBlockAddr + 1))
    let dataBuf := readU16 mem (u16 (paramBlockAddr + 2))
    let requestCount := readU16 mem (u16 (paramBlockAddr + 4))
    let mem1 := writeU16 mem (u16 (paramBlockAddr + 6)) 0
    match ofs refNum with
    | none => (0x43, ofs, mem1)
    | some of =>
        if of.isDirectory then
          let dirEof := of.dirBlockCount * 512
          if of.mark ≥ dirEof then (0x4C, ofs, mem1)
          else
            let bytesToRead := min requestCount (dirEof - of.mark)
            let mem2 := dirCopy of.dirData dataBuf of.mark mem1 bytesToRead
            (if bytesToRead = 0 then 0x4C else 0x00,
              fun r => (if r = refNum then
                some { of with mark := of.mark + bytesToRead } else ofs r),
              writeU16 mem2 (u16 (paramBlockAddr + 6)) bytesToRead)
        else
          let eof := getFileEof of
          if of.mark ≥ eof then (0x4C, ofs, mem1)
          else
            let lr := readLoop eof dataBuf of mem1 0 0 requestCount
            (lr.2.2.2,
              fun r => (if r = refNum then some lr.1 else ofs r),
              writeU16 lr.2.1 (u16 (paramBlockAddr + 6)) lr.2.2.1)

/-- Index of the first byte, within the next w bytes of the file starting
at mark, that satisfies the newline stop condition of the entry. -/
def firstNlStop (of : OpenFile) (mark : Nat) : Nat → Option Nat
  | 0 => none
  | w + 1 =>
      if of.newlineEnabled &&
          ((of.hostData mark &&& of.newlineMask) ==
            (of.newlineChar &&& of.newlineMask)) then
        some 0
      else (firstNlStop of (mark + 1) w).map (· + 1)

/-- Closed-form (trans_count, error) outcome of a regular-file READ, the
amended C4 statement: at EOF on entry, zero bytes and $4C; a newline match
at relative index k stops the transfer after k+1 bytes with success; else
the transfer is min(request, eof - mark) bytes, with $4C exactly when that
window is smaller than the request. -/
def readOutcome (of : OpenFile) (eof request : Nat) : Nat × Nat :=
  if of.mark ≥ eof then (0, 0x4C)
  else
    match firstNlStop of of.mark (min request (eof - of.mark)) with
    | some k => (k + 1, 0x00)
    | none => (min request (eof - of.mark),
        if min request (eof - of.mark) < request then 0x4C else 0x00)

/-- Open file for the C4 counterexample: a 1-byte regular host file
holding the letter H, freshly opened. -/
def ofC4 : OpenFile where
  mark := 0
  ioBuffer := 0
  newlineEnabled := false
  newlineMask := 0
  newlineChar := 0
  isDirectory := false
  hostData := fun o => if o = 0 then 72 else 0
  hostSize := 1
  dirBlockCount := 0
  dirData := fun _ => 0

/-- Open-file table for the C4 counterexample: ref_num 1 only. -/
def ofsC4 : OpenFiles := fun r => if r = 1 then some ofC4 else none

/-- Memory for the C4 counterexample: parameter count 4, ref_num 1, data
buffer $0500, request count 2. -/
def memC4 : Mem := fun a =>
  if a = 0 then 4 else if a = 1 then 1
  else if a = 2 then 0 else if a = 3 then 5
  else if a = 4 then 2 else 0

/-! ## MLI dispatcher (src/src/mli_dispatch.cpp)

Every handler in the sources begins by reading the parameter-count byte at
parameter-block offset 0 and returning BAD_CALL_PARAM_COUNT ($04) on
mismatch, before any other read, validation or side effect; this common
prologue is embedded in checkedCall, and the remainder of each handler
(much of it host-filesystem code) is abstracted as a continuation indexed
by the call number, universally quantified in the theorem.  GET_TIME
($82) ignores its parameter block entirely and writes the host clock
(date word dw at $BF90, time word tw at $BF92), returning $00. -/

def checkedCall {σ : Type} (expected : Nat)
    (restF : σ → Mem → Nat → Nat × σ × Mem)
    (st : σ) (mem : Mem) (pb : Nat) : Nat × σ × Mem :=
  if readU8 mem pb ≠ expected then (0x04, st, mem) else restF st mem pb

/-- mli_dispatch (mli_dispatch.cpp lines 7-76) with each handler reduced
to its parameter-count prologue plus abstract remainder. -/
def mliDispatch {σ : Type} (rest : Nat → σ → Mem → Nat → Nat × σ × Mem)
    (dw tw : Nat) (st : σ) (mem : Mem) (callNumber paramBlockAddr : Nat) :
    Nat × σ × Mem :=
  if callNumber = 0xC0 then checkedCall 7 (rest 0xC0) st mem paramBlockAddr
  else if callNumber = 0xC1 then checkedCall 1 (rest 0xC1) st mem paramBlockAddr
  else if callNumber = 0xC2 then checkedCall 2 (rest 0xC2) st mem paramBlockAddr
  else if callNumber = 0xC3 then checkedCall 7 (rest 0xC3) st mem paramBlockAddr
  else if callNumber = 0xC4 then checkedCall 0x0A (rest 0xC4) st mem paramBlockAddr
  else if callNumber = 0xC5 then checkedCall 2 (rest 0xC5) st mem paramBlockAddr
  else if callNumber = 0xC6 then checkedCall 1 (rest 0xC6) st mem paramBlockAddr
  else if callNumber = 0xC7 then checkedCall 1 (rest 0xC7) st mem paramBlockAddr
  else if callNumber = 0xC8 then checkedCall 3 (rest 0xC8) st mem paramBlockAddr
  else if callNumber = 0xC9 then checkedCall 3 (rest 0xC9) st mem paramBlockAddr
  else if callNumber = 0xCA then checkedCall 4 (rest 0xCA) st mem paramBlockAddr
  else if callNumber = 0xCB then checkedCall 4 (rest 0xCB) st mem paramBlockAddr
  else if callNumber = 0xCC then checkedCall 1 (rest 0xCC) st mem paramBlockAddr
  else if callNumber = 0xCD then checkedCall 1 (rest 0xCD) st mem paramBlockAddr
  else if callNumber = 0xCE then checkedCall 2 (rest 0xCE) st mem paramBlockAddr
  else if callNumber = 0xCF then checkedCall 2 (rest 0xCF) st mem paramBlockAddr
  else if callNumber = 0xD0 then checkedCall 2 (rest 0xD0) st mem paramBlockAddr
  else if callNumber = 0xD1 then checkedCall 2 (rest 0xD1) st mem paramBlockAddr
  else if callNumber = 0xD2 then checkedCall 2 (rest 0xD2) st mem paramBlockAddr
  else if callNumber = 0xD3 then checkedCall 2 (rest 0xD3) st mem paramBlockAddr
  else if callNumber = 0x40 then checkedCall 2 (rest 0x40) st mem paramBlockAddr
  else if callNumber = 0x41 then checkedCall 1 (rest 0x41) st mem paramBlockAddr
  else if callNumber = 0x80 then checkedCall 3 (rest 0x80) st mem paramBlockAddr
  else if callNumber = 0x81 then checkedCall 3 (rest 0x81) st mem paramBlockAddr
  else if callNumber = 0x82 then
    (0x00, st, writeU16 (writeU16 mem 0xBF90 dw) 0xBF92 tw)
  else (0x01, st, mem)

/-- Parameter counts the handlers check against (GET_TIME $82 checks
none). -/
def mliParamCountTable (n : Nat) : Option Nat :=
  if n = 0xC0 then some 7 else if n = 0xC1 then some 1
  else if n = 0xC2 then some 2 else if n = 0xC3 then some 7
  else if n = 0xC4 then some 0x0A else if n = 0xC5 then some 2
  else if n = 0xC6 then some 1 else if n = 0xC7 then some 1
  else if n = 0xC8 then some 3 else if n = 0xC9 then some 3
  else if n = 0xCA then some 4 else if n = 0xCB then some 4
  else if n = 0xCC then some 1 else if n = 0xCD then some 1
  else if n = 0xCE then some 2 else if n = 0xCF then some 2
  else if n = 0xD0 then some 2 else if n = 0xD1 then some 2
  else if n = 0xD2 then some 2 else if n = 0xD3 then some 2
  else if n = 0x40 then some 2 else if n = 0x41 then some 1
  else if n = 0x80 then some 3 else if n = 0x81 then some 3
  else none

/-- Continuation for the C5 witness: an arbitrary distinctive result. -/
def restW : Nat → Unit → Mem → Nat → Nat × Unit × Mem :=
  fun _ st mem _ => (0x99, st, mem)

/-- Memory for the C5 witness: every byte 9, so every parameter count
mismatches. -/
def memW : Mem := fun _ => 9

/-! ## Access-byte codec (src/include/prodos8emu/access_byte.hpp)

Characters as byte codes: d=100, n=110, b=98, i=105, w=119, r=114,
dash=45, dot=46. -/

/-- format_access_byte (access_byte.hpp lines 42-54). -/
def format_access_byte (accessByte : Nat) : List Nat :=
  [if accessByte &&& 0x80 ≠ 0 then 100 else 45,
   if accessByte &&& 0x40 ≠ 0 then 110 else 45,
   if accessByte &&& 0x20 ≠ 0 then 98 else 45,
   46, 46,
   if accessByte &&& 0x04 ≠ 0 then 105 else 45,
   if accessByte &&& 0x02 ≠ 0 then 119 else 45,
   if accessByte &&& 0x01 ≠ 0 then 114 else 45]

/-- One defined bit position of parse_access_byte: the expected letter
sets the mask, a dash leaves the accumulator, anything else fails. -/
def parseBit (c letter mask r : Nat) : Option Nat :=
  if c = letter then some (r ||| mask)
  else if c ≠ 45 then none
  else some r

/-- parse_access_byte (access_byte.hpp lines 67-129): exactly 8
characters; defined positions accept letter or dash, reserved positions
(3 and 4) require a dot and stay cleared. -/
def parse_access_byte (s : List Nat) : Option Nat :=
  match s with
  | [c0, c1, c2, c3, c4, c5, c6, c7] =>
      (parseBit c0 100 0x80 0).bind fun r =>
      (parseBit c1 110 0x40 r).bind fun r =>
      (parseBit c2 98 0x20 r).bind fun r =>
      if c3 ≠ 46 then none else
      if c4 ≠ 46 then none else
      (parseBit c5 105 0x04 r).bind fun r =>
      (parseBit c6 119 0x02 r).bind fun r =>
      (parseBit c7 114 0x01 r).bind fun r => some r
  | _ => none


/-! ## Theorems -/

theorem u8_u8 (x : Nat) : u8 (u8 x) = u8 x := by
  unfold u8
  omega

/-- C1: the spec claims that banks 13..15 of the write view point at the
selected LC arrays iff lc_write_enabled and at the write_sink slices
otherwise, and that the $C081-$C081-write-$D000 scenario ends with a read
of 0x5A.  The code violates both: updateBanks never consults
m_lcWriteEnabled and never maps m_writeSink, so after arming write-enable
via two $C081 reads the write view of bank 13 still points at the ROM area;
the bus write of 0x5A lands in rom_area and the final bus read of $D000
(LC read re-enabled, bank 2 selected by $C081) yields 0, not 0x5A. -/
theorem C1_write_view_bug :
    c1s2.lcWriteEnabled = true ∧
    banksView c1s2 13 = Slice.romSlice 0 ∧
    (∀ (m : Apple2Memory) (bank base : Nat),
      banksView m bank ≠ Slice.sinkSlice base) ∧
    c1s3.romArea 0 = 0x5A ∧
    (cpuRead8 c1s5 0xD000).1 = 0 := by
  refine ⟨by decide, rfl, ?_, by decide, by decide⟩
  intro m bank base
  unfold banksView updateBanksView
  split_ifs <;> simp

/-- C3: apply_soft_switch returns false and changes no state outside
$C080..$C08F; in range it returns true, selects bank 1 from bit 3 of the
low nibble, enables LC write exactly on the second consecutive read of a
write-enable command (low two bits 01 or 11) while clearing the latch, and
in every other access clears the latch and disables LC write; LC read is
set iff the command is 00 or 11; all storage arrays are untouched. -/
theorem C3_soft_switch_protocol (m : Apple2Memory) (addr : Nat) (isRead : Bool) :
    (¬ (0xC080 ≤ addr ∧ addr ≤ 0xC08F) →
      applySoftSwitch m addr isRead = (false, m)) ∧
    ((0xC080 ≤ addr ∧ addr ≤ 0xC08F) →
      applySoftSwitch m addr isRead =
        (true,
          { m with
            lcBank1 := decide ((addr % 16) &&& 8 ≠ 0)
            lcWriteEnabled :=
              isRead && decide (addr % 4 = 1 ∨ addr % 4 = 3) &&
                m.lcWritePrequalified
            lcWritePrequalified :=
              isRead && decide (addr % 4 = 1 ∨ addr % 4 = 3) &&
                !m.lcWritePrequalified
            lcReadEnabled := decide (addr % 4 = 0 ∨ addr % 4 = 3) })) := by
  constructor
  · intro h
    have h' : addr < 0xC080 ∨ 0xC08F < addr := by omega
    simp [applySoftSwitch, h']
  · intro h
    obtain ⟨h1, h2⟩ := h
    rcases m with ⟨ram, lc2, rom, sink, r, w, b1, pq⟩
    interval_cases addr <;>
      cases isRead <;> cases r <;> cases b1 <;> cases pq <;> rfl

theorem C3_soft_switch_protocol_witness :
    applySoftSwitch freshApple2Memory 0xC081 true =
      (true,
        { freshApple2Memory with
          lcBank1 := false
          lcWriteEnabled := false
          lcWritePrequalified := true
          lcReadEnabled := false }) ∧
    applySoftSwitch freshApple2Memory 0xC000 true =
      (false, freshApple2Memory) := by
  constructor
  · have h := (C3_soft_switch_protocol freshApple2Memory 0xC081 true).2
      ⟨by decide, by decide⟩
    exact h
  · exact (C3_soft_switch_protocol freshApple2Memory 0xC000 true).1 (by decide)

/-! Flag-bit helper lemmas used to read claim-level flag values off the
setFlag chains. -/

theorem and_mask_ne_iff_testBit (q k : Nat) :
    (q &&& 2 ^ k ≠ 0) ↔ q.testBit k := by
  rw [Nat.and_two_pow]
  have h2 : 0 < 2 ^ k := Nat.pos_pow_of_pos k (by norm_num)
  cases h : q.testBit k <;> simp

theorem testBit_setFlag_same (q k : Nat) (v : Bool) (h5 : k ≠ 5) (h8 : k < 8) :
    (setFlag q (2 ^ k) v).testBit k = v := by
  have h32 : (FLAG_U).testBit k = false := by
    have : FLAG_U = 2 ^ 5 := by decide
    rw [this, Nat.testBit_two_pow]
    simp [Ne.symm h5]
  cases v with
  | true =>
      simp [setFlag, Nat.testBit_or, h32, Nat.testBit_two_pow]
  | false =>
      have hx : (0xFF ^^^ 2 ^ k).testBit k = false := by
        rw [Nat.testBit_xor, Nat.testBit_two_pow]
        have : (0xFF : Nat).testBit k = true := by
          interval_cases k <;> decide
        simp [this]
      simp [setFlag, Nat.testBit_or, h32, Nat.testBit_and, hx]

theorem testBit_setFlag_other (q m : Nat) (v : Bool) (k : Nat) (h5 : k ≠ 5)
    (h8 : k < 8) (hm : m.testBit k = false) :
    (setFlag q m v).testBit k = q.testBit k := by
  have h32 : (FLAG_U).testBit k = false := by
    have : FLAG_U = 2 ^ 5 := by decide
    rw [this, Nat.testBit_two_pow]
    simp [Ne.symm h5]
  have hx : (0xFF ^^^ m).testBit k = true := by
    rw [Nat.testBit_xor, hm]
    have : (0xFF : Nat).testBit k = true := by
      interval_cases k <;> decide
    simp [this]
  cases v with
  | true => simp [setFlag, Nat.testBit_or, h32, hm]
  | false => simp [setFlag, Nat.testBit_or, h32, Nat.testBit_and, hx]

theorem getFlag_eq_testBit (q k : Nat) : getFlag q (2 ^ k) = q.testBit k := by
  simp [getFlag, and_mask_ne_iff_testBit]

theorem recordPCChange_r (s : CPUState) (a b : Nat) :
    (recordPCChange s a b).r = s.r := by
  unfold recordPCChange
  split
  · rfl
  · dsimp only
    split <;> rfl

theorem recordPCChange_mem (s : CPUState) (a b : Nat) :
    (recordPCChange s a b).mem = s.mem := by
  unfold recordPCChange
  split
  · rfl
  · dsimp only
    split <;> rfl

theorem or_256 : ∀ x, x < 256 → 0x0100 ||| x = 0x0100 + x := by decide

theorem memWriteU8_flags (m : Apple2Memory) (addr v : Nat) :
    (memWriteU8 m addr v).lcReadEnabled = m.lcReadEnabled ∧
    (memWriteU8 m addr v).lcBank1 = m.lcBank1 := by
  unfold memWriteU8 banksView updateBanksView
  split_ifs <;> simp [sliceSet]

theorem memReadU8_memWriteU8_same (m : Apple2Memory) (addr v : Nat)
    (h : addr < 0xD000) : memReadU8 (memWriteU8 m addr v) addr = u8 v := by
  have hu : u16 addr = addr := Nat.mod_eq_of_lt (by omega)
  have hb : addr / 4096 ≤ 12 := by omega
  unfold memReadU8 memWriteU8 constBanksView banksView updateBanksView
  rw [hu]
  simp only [if_pos hb]
  simp [sliceGet, sliceSet, u8, Nat.mod_mod_of_dvd]

theorem memReadU8_memWriteU8_other (m : Apple2Memory) (addr addr' v : Nat)
    (h : addr < 0xD000) (h' : addr' < 0xD000) (hne : addr' ≠ addr) :
    memReadU8 (memWriteU8 m addr v) addr' = memReadU8 m addr' := by
  have hu : u16 addr = addr := Nat.mod_eq_of_lt (by omega)
  have hu' : u16 addr' = addr' := Nat.mod_eq_of_lt (by omega)
  have hb : addr / 4096 ≤ 12 := by omega
  have hb' : addr' / 4096 ≤ 12 := by omega
  have hsplit : ¬ (addr' / 4096 = addr / 4096 ∧ addr' % 4096 = addr % 4096) := by
    rintro ⟨h1, h2⟩
    exact hne (by omega)
  unfold memReadU8 memWriteU8 constBanksView banksView updateBanksView
  rw [hu, hu']
  simp only [if_pos hb, if_pos hb']
  simp [sliceGet, sliceSet, hsplit]

theorem jsrNormal_outcome {σ : Type} (s : CPUState) (target : Nat)
    (mliOpt : Option σ) :
    NormalJsrOutcome s target mliOpt (jsrNormal s target mliOpt) := by
  have hsp : u8 s.r.sp < 256 := Nat.mod_lt _ (by norm_num)
  have hsp2 : u8 (s.r.sp + 255) < 256 := Nat.mod_lt _ (by norm_num)
  have ha1 : 0x0100 ||| u8 s.r.sp = 0x0100 + u8 s.r.sp := or_256 _ hsp
  have ha2 : 0x0100 ||| u8 (u8 (s.r.sp + 255)) = 0x0100 + u8 (s.r.sp + 255) := by
    rw [u8_u8]
    exact or_256 _ hsp2
  have hne : 0x0100 + u8 (s.r.sp + 255) ≠ 0x0100 + u8 s.r.sp := by
    simp only [u8]
    omega
  have hlt1 : 0x0100 + u8 s.r.sp < 0xD000 := by simp only [u8]; omega
  have hlt2 : 0x0100 + u8 (s.r.sp + 255) < 0xD000 := by simp only [u8]; omega
  have hcond1 : ¬ (0xC080 ≤ 0x0100 + u8 s.r.sp ∧ 0x0100 + u8 s.r.sp ≤ 0xC08F) := by
    simp only [u8]; omega
  have hcond2 : ¬ (0xC080 ≤ 0x0100 + u8 (s.r.sp + 255) ∧
      0x0100 + u8 (s.r.sp + 255) ≤ 0xC08F) := by
    simp only [u8]; omega
  unfold jsrNormal push16 push8 csWrite8
  refine ⟨rfl, ?_, ?_, ?_, ?_, ?_, ?_, ?_, ?_⟩
  · rw [recordPCChange_r]
  · rw [recordPCChange_r]
    show u8 (u8 (s.r.sp + 255) + 255) = u8 (s.r.sp + 254)
    simp only [u8]
    omega
  · rw [recordPCChange_r]
  · rw [recordPCChange_r]
  · rw [recordPCChange_r]
  · rw [recordPCChange_r]
  · rw [recordPCChange_mem]
    show memReadU8 (cpuWrite8 (cpuWrite8 s.mem _ _) _ _) _ = _
    rw [ha1, ha2]
    unfold cpuWrite8
    rw [if_neg hcond1, if_neg hcond2]
    rw [memReadU8_memWriteU8_other _ _ _ _ hlt2 hlt1 (Ne.symm hne),
      memReadU8_memWriteU8_same _ _ _ hlt1, u8_u8]
  · rw [recordPCChange_mem]
    show memReadU8 (cpuWrite8 (cpuWrite8 s.mem _ _) _ _) _ = _
    rw [ha1, ha2]
    unfold cpuWrite8
    rw [if_neg hcond1, if_neg hcond2]
    rw [memReadU8_memWriteU8_same _ _ _ hlt2, u8_u8]

/-- C2: with an MLI context attached, JSR with operand $BF00 pushes nothing
(SP unchanged) and does not jump: PC advances past the three inline bytes,
the dispatcher is invoked on the call number read at PC and the LE16
parameter-block address read at PC+1, A receives the returned error code,
C is set iff the error is nonzero, N and Z follow A, and D is cleared.
With any other target, or with no MLI context, JSR pushes PC-1 and jumps
normally. -/
theorem C2_jsr_bf00_trap {σ : Type}
    (dispatch : Nat → Nat → Apple2Memory → σ → Nat × Apple2Memory × σ)
    (ctx : σ) (s : CPUState) (target : Nat) :
    (target = 0xBF00 →
      (jsrAbs dispatch (some ctx) s target).2.1.r.sp = s.r.sp ∧
      (jsrAbs dispatch (some ctx) s target).2.1.r.pc = u16 (s.r.pc + 3) ∧
      (jsrAbs dispatch (some ctx) s target).2.1.r.a =
        u8 (dispatch (trapReads s).1 (trapReads s).2.1 (trapDispatchMem s) ctx).1 ∧
      (jsrAbs dispatch (some ctx) s target).2.1.mem =
        (dispatch (trapReads s).1 (trapReads s).2.1 (trapDispatchMem s) ctx).2.1 ∧
      (jsrAbs dispatch (some ctx) s target).2.2 =
        some (dispatch (trapReads s).1 (trapReads s).2.1 (trapDispatchMem s) ctx).2.2 ∧
      getFlag (jsrAbs dispatch (some ctx) s target).2.1.r.p FLAG_C =
        decide (u8 (dispatch (trapReads s).1 (trapReads s).2.1
          (trapDispatchMem s) ctx).1 ≠ 0) ∧
      getFlag (jsrAbs dispatch (some ctx) s target).2.1.r.p FLAG_N =
        decide (u8 (dispatch (trapReads s).1 (trapReads s).2.1
          (trapDispatchMem s) ctx).1 &&& 0x80 ≠ 0) ∧
      getFlag (jsrAbs dispatch (some ctx) s target).2.1.r.p FLAG_Z =
        decide (u8 (dispatch (trapReads s).1 (trapReads s).2.1
          (trapDispatchMem s) ctx).1 = 0) ∧
      getFlag (jsrAbs dispatch (some ctx) s target).2.1.r.p FLAG_D = false) ∧
    (target ≠ 0xBF00 →
      NormalJsrOutcome s target (some ctx) (jsrAbs dispatch (some ctx) s target)) ∧
    NormalJsrOutcome s target none (jsrAbs dispatch none s target) := by
  refine ⟨?_, ?_, ?_⟩
  · intro h
    subst h
    refine ⟨?_, ?_, ?_, ?_, ?_, ?_, ?_, ?_, ?_⟩
    · simp only [jsrAbs, reduceIte]
      rw [recordPCChange_r]
      rfl
    · simp only [jsrAbs, reduceIte]
      rw [recordPCChange_r]
    · simp only [jsrAbs, reduceIte]
      rfl
    · simp only [jsrAbs, reduceIte]
      rfl
    · simp only [jsrAbs, reduceIte]
      rfl
    · simp only [jsrAbs, reduceIte]
      show getFlag (setFlag (setNZ _ _) FLAG_D false) (2 ^ 0) = _
      rw [getFlag_eq_testBit,
        testBit_setFlag_other _ _ _ 0 (by decide) (by decide) (by decide),
        setNZ,
        testBit_setFlag_other _ _ _ 0 (by decide) (by decide) (by decide),
        testBit_setFlag_other _ _ _ 0 (by decide) (by decide) (by decide)]
      exact testBit_setFlag_same _ 0 _ (by decide) (by decide)
    · simp only [jsrAbs, reduceIte]
      show getFlag (setFlag (setNZ _ _) FLAG_D false) (2 ^ 7) = _
      rw [getFlag_eq_testBit,
        testBit_setFlag_other _ _ _ 7 (by decide) (by decide) (by decide),
        setNZ]
      exact testBit_setFlag_same _ 7 _ (by decide) (by decide)
    · simp only [jsrAbs, reduceIte]
      show getFlag (setFlag (setNZ _ _) FLAG_D false) (2 ^ 1) = _
      rw [getFlag_eq_testBit,
        testBit_setFlag_other _ _ _ 1 (by decide) (by decide) (by decide),
        setNZ,
        testBit_setFlag_other _ _ _ 1 (by decide) (by decide) (by decide)]
      exact testBit_setFlag_same _ 1 _ (by decide) (by decide)
    · simp only [jsrAbs, reduceIte]
      show getFlag (setFlag (setNZ _ _) FLAG_D false) (2 ^ 3) = _
      rw [getFlag_eq_testBit]
      exact testBit_setFlag_same _ 3 _ (by decide) (by decide)
  · intro h
    have hj : jsrAbs dispatch (some ctx) s target = jsrNormal s target (some ctx) := by
      simp only [jsrAbs]
      rw [if_neg h]
    rw [hj]
    exact jsrNormal_outcome s target (some ctx)
  · exact jsrNormal_outcome s target none

theorem C2_jsr_bf00_trap_witness :
    (jsrAbs dispatch0 (some ()) cpu0 0xBF00).2.1.r.sp = 0xFF ∧
    (jsrAbs dispatch0 (some ()) cpu0 0xBF00).2.1.r.pc = 0x2003 ∧
    (jsrAbs dispatch0 (some ()) cpu0 0xBF00).2.1.r.a = 0x46 ∧
    getFlag (jsrAbs dispatch0 (some ()) cpu0 0xBF00).2.1.r.p FLAG_C = true ∧
    getFlag (jsrAbs dispatch0 (some ()) cpu0 0xBF00).2.1.r.p FLAG_D = false ∧
    NormalJsrOutcome cpu0 0x1234 (some ())
      (jsrAbs dispatch0 (some ()) cpu0 0x1234) := by
  have h1 := (C2_jsr_bf00_trap dispatch0 () cpu0 0xBF00).1 rfl
  have h2 := (C2_jsr_bf00_trap dispatch0 () cpu0 0x1234).2.1 (by decide)
  exact ⟨h1.1, h1.2.1, h1.2.2.1, h1.2.2.2.2.2.1, h1.2.2.2.2.2.2.2.2, h2⟩

/-! Arithmetic helper lemmas for the byte-level readers and writers. -/

theorem readU8_lt (mem : Mem) (a : Nat) : readU8 mem a < 256 :=
  Nat.mod_lt _ (by norm_num)

theorem lor_shift (n : Nat) :
    ∀ a b : Nat, a < 2 ^ n → a ||| (b <<< n) = a + 2 ^ n * b := by
  induction n with
  | zero =>
      intro a b ha
      interval_cases a
      simp [Nat.shiftLeft_eq]
  | succ n ih =>
      intro a b ha
      have hy : b <<< (n + 1) = 2 * (b <<< n) := by
        simp [Nat.shiftLeft_eq, Nat.pow_succ]
        ring
      have hdm := Nat.div_add_mod (a ||| b <<< (n + 1)) 2
      have hdiv : (a ||| b <<< (n + 1)) / 2 = a / 2 ||| b <<< n := by
        rw [hy, Nat.or_div_two, Nat.mul_div_cancel_left _ (by norm_num : (0:Nat) < 2)]
      have hyev : (2 * (b <<< n)) % 2 = 0 := by omega
      have hmod : (a ||| b <<< (n + 1)) % 2 = a % 2 := by
        rw [hy]
        rcases Nat.mod_two_eq_zero_or_one a with h | h <;>
          rcases Nat.mod_two_eq_zero_or_one (a ||| 2 * (b <<< n)) with h' | h'
        · omega
        · have := (@Nat.or_mod_two_eq_one a (2 * (b <<< n))).mp h'
          omega
        · have := (@Nat.or_mod_two_eq_one a (2 * (b <<< n))).mpr (Or.inl h)
          omega
        · omega
      have hih : a / 2 ||| b <<< n = a / 2 + 2 ^ n * b := by
        apply ih
        omega
      have hpow : (2:Nat) ^ (n + 1) = 2 * 2 ^ n := by ring
      have hpb : 2 ^ (n + 1) * b = 2 * (2 ^ n * b) := by rw [hpow]; ring
      omega

theorem readU16_eq (mem : Mem) (a : Nat) :
    readU16 mem a = readU8 mem a + 256 * readU8 mem (u16 (a + 1)) := by
  unfold readU16
  exact lor_shift 8 _ _ (readU8_lt mem a)

theorem readU16_lt (mem : Mem) (a : Nat) : readU16 mem a < 65536 := by
  rw [readU16_eq]
  have h1 := readU8_lt mem a
  have h2 := readU8_lt mem (u16 (a + 1))
  omega

theorem readU24_eq (mem : Mem) (a : Nat) :
    readU24 mem a = readU8 mem a + 256 * readU8 mem (u16 (a + 1)) +
      65536 * readU8 mem (u16 (a + 2)) := by
  unfold readU24
  rw [lor_shift 8 _ _ (readU8_lt mem a)]
  rw [show (2:Nat) ^ 8 = 256 from by norm_num]
  have h1 := readU8_lt mem a
  have h2 := readU8_lt mem (u16 (a + 1))
  rw [lor_shift 16 _ _ (by omega)]
  norm_num

theorem and_255 (v : Nat) : v &&& 255 = v % 256 := by
  rw [show (255:Nat) = 2 ^ 8 - 1 from by norm_num,
    Nat.and_pow_two_sub_one_eq_mod]

theorem shr_8 (v : Nat) : v >>> 8 = v / 256 := by
  rw [Nat.shiftRight_eq_div_pow]

theorem readU8_writeU8_same (mem : Mem) (a v : Nat) :
    readU8 (writeU8 mem a v) a = u8 v := by
  unfold readU8 writeU8
  simp [u8_u8]

theorem readU8_writeU8_other (mem : Mem) (a a' v : Nat) (h : u16 a' ≠ u16 a) :
    readU8 (writeU8 mem a v) a' = readU8 mem a' := by
  unfold readU8 writeU8
  rw [if_neg]
  simp only [u16] at h ⊢
  omega

theorem readU16_writeU16 (mem : Mem) (a v : Nat) :
    readU16 (writeU16 mem a v) a = u16 v := by
  have hne : u16 a ≠ u16 (u16 (a + 1)) := by
    simp only [u16]
    omega
  have h1 : readU8 (writeU16 mem a v) a = u8 (v &&& 255) := by
    unfold writeU16
    rw [readU8_writeU8_other _ _ _ _ hne]
    exact readU8_writeU8_same mem a _
  have h2 : readU8 (writeU16 mem a v) (u16 (a + 1)) = u8 ((v >>> 8) &&& 255) := by
    unfold writeU16
    exact readU8_writeU8_same _ _ _
  unfold readU16
  rw [h1, h2]
  have hlo : u8 (v &&& 255) = v % 256 := by
    rw [and_255]
    simp [u8]
  have hhi : u8 ((v >>> 8) &&& 255) = v / 256 % 256 := by
    rw [shr_8, and_255]
    simp [u8]
  rw [hlo, hhi, lor_shift 8 _ _ (by omega)]
  simp only [u16]
  omega

theorem isValidPathname_length (p : List Nat) (n : Nat)
    (h : isValidPathname p n = true) : p ≠ [] ∧ p.length ≤ n := by
  unfold isValidPathname at h
  by_cases hc : p.isEmpty || decide (p.length > n)
  · rw [if_pos (by simpa using hc)] at h
    exact absurd h (by simp)
  · simp only [Bool.or_eq_true, decide_eq_true_eq, not_or] at hc
    refine ⟨?_, by omega⟩
    intro hnil
    exact hc.1 (by simp [hnil])

theorem resolveFullPath_head (pathname pfx : List Nat)
    (hok : prefixOK pfx)
    (hearly : (!pathname.isEmpty && pathname.headD 0 != 47 && pfx.isEmpty) = false)
    (hne : resolveFullPath pathname pfx ≠ []) :
    (resolveFullPath pathname pfx).headD 0 = 47 := by
  unfold resolveFullPath at hne ⊢
  by_cases hC : (!pathname.isEmpty && pathname.headD 0 == 47) = true
  · rw [if_pos hC] at hne ⊢
    by_cases h128 : pathname.length > 128
    · rw [if_pos h128] at hne
      exact absurd rfl hne
    · rw [if_neg h128] at hne ⊢
      simp only [Bool.and_eq_true, beq_iff_eq] at hC
      exact hC.2
  · rw [if_neg hC] at hne ⊢
    rcases hok with hemp | ⟨hhead, hvalid⟩
    · subst hemp
      simp only [List.isEmpty_nil, Bool.not_true, Bool.false_and,
        Bool.false_eq_true, if_false, List.nil_append] at hne ⊢
      by_cases h128 : pathname.length > 128
      · rw [if_pos h128] at hne
        exact absurd rfl hne
      · rw [if_neg h128] at hne ⊢
        cases pathname with
        | nil => exact absurd rfl hne
        | cons c cs =>
            simp only [List.isEmpty_cons, List.isEmpty_nil, Bool.not_false,
              Bool.true_and, Bool.and_true, List.headD_cons,
              bne_eq_false_iff_eq] at hearly
            simpa using hearly
    · have hpfxne : pfx ≠ [] := (isValidPathname_length pfx 64 hvalid).1
      cases pfx with
      | nil => exact absurd rfl hpfxne
      | cons a t =>
          by_cases h128 :
              ((a :: t) ++
                (if (!(a :: t).isEmpty && ((a :: t).getLastD 0 != 47) &&
                    !pathname.isEmpty) then [47] else []) ++ pathname).length > 128
          · rw [if_pos h128] at hne
            exact absurd rfl hne
          · rw [if_neg h128] at hne ⊢
            simp only [List.cons_append, List.headD_cons] at hhead ⊢
            exact hhead

theorem u16_u16 (x : Nat) : u16 (u16 x) = u16 x := by
  unfold u16
  omega

theorem setPrefix_preserves (pfx : List Nat) (mem : Mem) (pb : Nat)
    (h : prefixOK pfx) : prefixOK (setPrefixCall pfx mem pb).2 := by
  simp only [setPrefixCall]
  split_ifs with h1 h2 h3 h4 h5
  · exact h
  · exact h
  · exact h
  · exact h
  · exact h
  · right
    have hval : isValidPathname
        (resolveFullPath
          (readNormalizedCountedString mem (readU16 mem (u16 (pb + 1)))) pfx)
        64 = true := by
      rcases Bool.eq_false_or_eq_true
        (isValidPathname (resolveFullPath
          (readNormalizedCountedString mem (readU16 mem (u16 (pb + 1)))) pfx) 64)
        with hv | hv
      · exact hv
      · exact absurd (by simp [hv]) h5
    refine ⟨?_, hval⟩
    apply resolveFullPath_head _ _ h
    · rcases Bool.eq_false_or_eq_true
        (!(readNormalizedCountedString mem (readU16 mem (u16 (pb + 1)))).isEmpty &&
          (readNormalizedCountedString mem (readU16 mem (u16 (pb + 1)))).headD 0 != 47 &&
          pfx.isEmpty) with hb | hb
      · exact absurd hb h3
      · exact hb
    · intro hnil
      exact h4 (by simp [hnil])

theorem foldl_writeU8_preserve (g : Nat → Nat) (base : Nat) (idxs : List Nat)
    (mm : Mem) (tgt : Nat)
    (h : ∀ i ∈ idxs, u16 (base + 1 + i) ≠ u16 tgt) :
    (idxs.foldl (fun m i => writeU8 m (u16 (base + 1 + i)) (g i)) mm) (u16 tgt) =
      mm (u16 tgt) := by
  induction idxs generalizing mm with
  | nil => rfl
  | cons i rest ih =>
      rw [List.foldl_cons, ih _ (fun j hj => h j (List.mem_cons_of_mem _ hj))]
      show (if u16 tgt = u16 (u16 (base + 1 + i)) then _ else _) = _
      rw [u16_u16, if_neg]
      intro hcontr
      exact h i (List.mem_cons_self _ _) hcontr.symm

theorem getPrefix_spec (p : List Nat) (hlen : p.length ≤ 64) (mem : Mem)
    (pb : Nat) (hpc : readU8 mem pb = 1) :
    (getPrefixCall p mem pb).1 = 0 ∧
    readU8 (getPrefixCall p mem pb).2 (readU16 mem (u16 (pb + 1))) = p.length := by
  have hcond : ¬ (readU8 mem pb ≠ 1) := by simp [hpc]
  simp only [getPrefixCall, if_neg hcond]
  refine ⟨trivial, ?_⟩
  have hptrlt := readU16_lt mem (u16 (pb + 1))
  unfold readU8
  rw [foldl_writeU8_preserve]
  · rw [show (writeU8 mem (readU16 mem (u16 (pb + 1))) (u8 p.length))
        (u16 (readU16 mem (u16 (pb + 1)))) = u8 (u8 p.length) from if_pos rfl]
    simp only [u8_u8]
    simp only [u8]
    omega
  · intro i hi
    rw [List.mem_range] at hi
    simp only [u16] at hptrlt ⊢
    omega

/-- C9: every reachable prefix of the MLI context is empty or an absolute
pathname accepted by the validator with limit 64 (hence of length at most
64); setPrefixCall is the only assignment to m_prefix in the sources, and
GET_PREFIX with a correct parameter count succeeds and writes a counted
string whose length byte equals the prefix length, at most 64. -/
theorem C9_prefix_invariant (p : List Nat) (h : PrefixReach p) :
    prefixOK p ∧ p.length ≤ 64 ∧
    (∀ (mem : Mem) (pb : Nat), readU8 mem pb = 1 →
      (getPrefixCall p mem pb).1 = 0 ∧
      readU8 (getPrefixCall p mem pb).2 (readU16 mem (u16 (pb + 1))) = p.length) := by
  induction h with
  | init =>
      exact ⟨Or.inl rfl, by simp, fun mem pb hpc => getPrefix_spec [] (by simp) mem pb hpc⟩
  | step p mem pb hr ih =>
      have hok := setPrefix_preserves p mem pb ih.1
      have hlen : (setPrefixCall p mem pb).2.length ≤ 64 := by
        rcases hok with he | ⟨_, hv⟩
        · simp [he]
        · exact (isValidPathname_length _ _ hv).2
      exact ⟨hok, hlen, fun mm pbb hpc => getPrefix_spec _ hlen mm pbb hpc⟩

theorem C9_prefix_invariant_witness :
    prefixOK ([] : List Nat) ∧
    (getPrefixCall [] mem9 0).1 = 0 ∧
    readU8 (getPrefixCall [] mem9 0).2 (readU16 mem9 (u16 1)) = 0 := by
  have h := C9_prefix_invariant [] PrefixReach.init
  have h2 := h.2.2 mem9 0 (by rfl)
  exact ⟨h.1, h2.1, h2.2⟩

/-- C7 counterexample: with prefix /AB, a 63-character partial pathname
resolves to an absolute, syntactically valid full path of 67 characters,
well within the claimed 128-character bound, yet SET_PREFIX rejects it
with INVALID_PATH_SYNTAX ($40) because the code validates the resolved
path against limit 64, not 128. -/
theorem C7_set_prefix_counterexample :
    (setPrefixCall pfx7 mem7 0).1 = 0x40 ∧
    (setPrefixCall pfx7 mem7 0).2 = pfx7 ∧
    (resolveFullPath (spInput mem7 0) pfx7).headD 0 = 47 ∧
    (resolveFullPath (spInput mem7 0) pfx7).length = 67 ∧
    isValidPathname (resolveFullPath (spInput mem7 0) pfx7) 128 = true ∧
    prefixOK pfx7 := by
  refine ⟨by decide, by decide, by decide, by decide, by decide, ?_⟩
  exact Or.inr ⟨rfl, by decide⟩

/-- C7 amended: for inputs whose count byte is within the 64-byte wire
format, SET_PREFIX succeeds and stores the resolved full path exactly when
the input is not a partial path against an empty prefix and the resolved
path is nonempty and passes the pathname validator with limit 64 (not 128
as claimed); otherwise it fails with INVALID_PATH_SYNTAX and leaves the
prefix unchanged. -/
theorem C7_set_prefix_amended (pfx : List Nat) (mem : Mem) (pb : Nat)
    (hpc : readU8 mem pb = 1)
    (hplen : readU8 mem (readU16 mem (u16 (pb + 1))) ≤ 64) :
    (((setPrefixCall pfx mem pb).1 = 0 ∧
        (setPrefixCall pfx mem pb).2 = resolveFullPath (spInput mem pb) pfx) ∨
      ((setPrefixCall pfx mem pb).1 = 0x40 ∧
        (setPrefixCall pfx mem pb).2 = pfx)) ∧
    ((setPrefixCall pfx mem pb).1 = 0 ↔
      (¬(spInput mem pb ≠ [] ∧ (spInput mem pb).headD 0 ≠ 47 ∧ pfx = []) ∧
        resolveFullPath (spInput mem pb) pfx ≠ [] ∧
        isValidPathname (resolveFullPath (spInput mem pb) pfx) 64 = true)) := by
  have h1 : ¬ (readU8 mem pb ≠ 1) := by simp [hpc]
  have h2 : ¬ (readU8 mem (readU16 mem (u16 (pb + 1))) > 64) := by omega
  simp only [setPrefixCall, if_neg h1, if_neg h2]
  split_ifs with h3 h4 h5
  · refine ⟨Or.inr ⟨rfl, rfl⟩, ?_⟩
    constructor
    · intro hz
      exact absurd hz (by norm_num)
    · intro hz
      apply hz.1
      simp only [Bool.and_eq_true, Bool.not_eq_true', bne_iff_ne,
        List.isEmpty_eq_true, List.isEmpty_eq_false] at h3
      simp only [spInput]
      exact ⟨h3.1.1, h3.1.2, h3.2⟩
  · refine ⟨Or.inr ⟨rfl, rfl⟩, ?_⟩
    constructor
    · intro hz
      exact absurd hz (by norm_num)
    · intro hz
      apply hz.2.1
      simp only [spInput]
      simpa using h4
  · refine ⟨Or.inr ⟨rfl, rfl⟩, ?_⟩
    constructor
    · intro hz
      exact absurd hz (by norm_num)
    · intro hz
      have hvf : isValidPathname
          (resolveFullPath (spInput mem pb) pfx) 64 = false := by
        simp only [spInput]
        simpa using h5
      rw [hz.2.2] at hvf
      cases hvf
  · refine ⟨Or.inl ⟨rfl, rfl⟩, ?_⟩
    constructor
    · intro _
      refine ⟨?_, ?_, ?_⟩
      · intro ⟨hne, hhd, hemp⟩
        apply h3
        simp only [spInput] at hne hhd
        simp only [Bool.and_eq_true, Bool.not_eq_true', List.isEmpty_eq_false,
          bne_iff_ne, List.isEmpty_eq_true]
        exact ⟨⟨hne, hhd⟩, hemp⟩
      · intro hnil
        apply h4
        simp only [spInput] at hnil
        simp [hnil]
      · rcases Bool.eq_false_or_eq_true
          (isValidPathname (resolveFullPath (spInput mem pb) pfx) 64) with hv | hv
        · exact hv
        · have hv2 : isValidPathname
              (resolveFullPath
                (readNormalizedCountedString mem (readU16 mem (u16 (pb + 1))))
                pfx) 64 = false := by
            simpa [spInput] using hv
          exact absurd (by simp [hv2]) h5
    · intro _
      rfl

/-- C6: the mark bound fails.  SET_MARK to $FFFFFF on a 16 MiB host file
succeeds, and a subsequent 1-byte WRITE succeeds and leaves the mark at
$01000000, exceeding the claimed bound $00FFFFFF; the write loop checks
the bound before each byte but increments past it. -/
theorem C6_mark_overflow :
    (setMarkCall ofsC6 memC6a 0).1 = 0 ∧
    markAt (setMarkCall ofsC6 memC6a 0).2 1 = 0xFFFFFF ∧
    (writeCall (setMarkCall ofsC6 memC6a 0).2 memC6b 0).1 = 0 ∧
    markAt (writeCall (setMarkCall ofsC6 memC6a 0).2 memC6b 0).2.1 1 = 0x1000000 ∧
    0xFFFFFF < 0x1000000 := by
  refine ⟨by decide, by decide, by decide, by decide, by decide⟩

/-- C10: CLOSE with ref_num 0 and correct parameter count always returns
$00 and empties the open-file table, whatever its prior state (the source
discards the result of every host close). -/
theorem C10_close_all (ofs : OpenFiles) (mem : Mem) (pb : Nat)
    (hpc : readU8 mem pb = 1) (hrn : readU8 mem (u16 (pb + 1)) = 0) :
    (closeCall ofs mem pb).1 = 0 ∧
    ∀ r, (closeCall ofs mem pb).2 r = none := by
  have h1 : ¬ (readU8 mem pb ≠ 1) := by simp [hpc]
  simp only [closeCall, if_neg h1, hrn, if_pos rfl]
  exact ⟨rfl, fun r => rfl⟩

theorem C10_close_all_witness :
    (closeCall ofsC6 memC10 0).1 = 0 ∧
    ∀ r, (closeCall ofsC6 memC10 0).2 r = none :=
  C10_close_all ofsC6 memC10 0 (by rfl) (by rfl)

theorem firstNlStop_lt (of : OpenFile) :
    ∀ (w mark k : Nat), firstNlStop of mark w = some k → k < w := by
  intro w
  induction w with
  | zero => intro mark k h; simp [firstNlStop] at h
  | succ w ih =>
      intro mark k h
      rw [firstNlStop] at h
      split_ifs at h with hc
      · cases h
        omega
      · rcases hmap : firstNlStop of (mark + 1) w with _ | k0
        · rw [hmap] at h
          simp at h
        · rw [hmap] at h
          simp only [Option.map_some'] at h
          have := ih (mark + 1) k0 hmap
          cases h
          omega

/-- Updating the mark leaves every other field alone (record projection). -/
theorem mark_update (of : OpenFile) (m : Nat) :
    ({ of with mark := m } : OpenFile).mark = m := rfl

/-- firstNlStop only looks at the newline fields and the host data, so an
updated mark does not change it. -/
theorem firstNlStop_mark (of : OpenFile) (m : Nat) :
    ∀ (w a : Nat), firstNlStop { of with mark := m } a w = firstNlStop of a w := by
  intro w
  induction w with
  | zero => intro a; rfl
  | succ w ih =>
      intro a
      simp only [firstNlStop]
      rw [ih]

theorem readLoop_spec (eof dataBuf : Nat) :
    ∀ (rem i trans : Nat) (of : OpenFile) (mem : Mem),
    ((readLoop eof dataBuf of mem i trans rem).2.2.1,
      (readLoop eof dataBuf of mem i trans rem).2.2.2) =
    (match firstNlStop of of.mark (min rem (eof - of.mark)) with
     | some k => (trans + k + 1, 0x00)
     | none =>
         (trans + min rem (eof - of.mark),
          if min rem (eof - of.mark) < rem then 0x4C
          else 0x00)) := by
  intro rem
  induction rem with
  | zero =>
      intro i trans of mem
      simp [readLoop, firstNlStop]
  | succ rem ih =>
      intro i trans of mem
      rw [readLoop]
      by_cases he : of.mark ≥ eof
      · rw [if_pos he]
        have h0 : eof - of.mark = 0 := by omega
        rw [h0]
        simp only [Nat.min_zero, firstNlStop]
        rw [if_pos (show 0 < rem + 1 by omega)]
        simp
      · rw [if_neg he]
        have hw : min (rem + 1) (eof - of.mark) =
            min rem (eof - (of.mark + 1)) + 1 := by omega
        rw [hw]
        by_cases hc : (of.newlineEnabled &&
            ((of.hostData of.mark &&& of.newlineMask) ==
              (of.newlineChar &&& of.newlineMask))) = true
        · rw [if_pos hc, firstNlStop, if_pos hc]
        · rw [if_neg hc]
          have hrec := ih (i + 1) (trans + 1)
            { of with mark := of.mark + 1 }
            (writeU8 mem (u16 (dataBuf + i)) (of.hostData of.mark))
          rw [hrec, firstNlStop, if_neg hc]
          simp only [firstNlStop_mark, mark_update]
          rcases hmap : firstNlStop of (of.mark + 1)
              (min rem (eof - (of.mark + 1))) with _ | k0
          · simp only [Option.map_none']
            have h1 : trans + 1 + min rem (eof - (of.mark + 1)) =
                trans + (min rem (eof - (of.mark + 1)) + 1) := by
              omega
            have h2 : (min rem (eof - (of.mark + 1)) < rem) ↔
                (min rem (eof - (of.mark + 1)) + 1 < rem + 1) := by
              omega
            rw [h1, if_congr h2 rfl rfl]
          · simp only [Option.map_some']
            have h1 : trans + 1 + k0 + 1 = trans + (k0 + 1) + 1 := by omega
            rw [h1]

/-- C4 amended: for a READ with correct parameter count on an open regular
file (host reads succeeding), the error code and the trans_count written
at +6 are exactly those of readOutcome: $4C both when the mark is at or
past EOF on entry (zero bytes) and when EOF cuts the request short after
some bytes; success when the request is filled or a newline match stops
the transfer immediately after the matching byte (included in the count);
trans_count never exceeds request_count. -/
theorem C4_read_semantics_amended (ofs : OpenFiles) (mem : Mem) (pb : Nat)
    (of : OpenFile)
    (hpc : readU8 mem pb = 4)
    (hof : ofs (readU8 mem (u16 (pb + 1))) = some of)
    (hdir : of.isDirectory = false) :
    (readCall ofs mem pb).1 =
      (readOutcome of (getFileEof of) (readU16 mem (u16 (pb + 4)))).2 ∧
    readU16 (readCall ofs mem pb).2.2 (u16 (pb + 6)) =
      (readOutcome of (getFileEof of) (readU16 mem (u16 (pb + 4)))).1 ∧
    (readOutcome of (getFileEof of) (readU16 mem (u16 (pb + 4)))).1 ≤
      readU16 mem (u16 (pb + 4)) := by
  have h1 : ¬ (readU8 mem pb ≠ 4) := by simp [hpc]
  have hreq := readU16_lt mem (u16 (pb + 4))
  simp only [readCall, if_neg h1, hof, hdir, Bool.false_eq_true, if_false]
  by_cases he : of.mark ≥ getFileEof of
  · rw [if_pos he]
    unfold readOutcome
    rw [if_pos he]
    refine ⟨rfl, ?_, by simp⟩
    have hw := readU16_writeU16 mem (u16 (pb + 6)) 0
    simpa [u16] using hw
  · rw [if_neg he]
    have hspec := readLoop_spec (getFileEof of) (readU16 mem (u16 (pb + 2)))
      (readU16 mem (u16 (pb + 4))) 0 0 of (writeU16 mem (u16 (pb + 6)) 0)
    unfold readOutcome
    rw [if_neg he]
    rcases hstop : firstNlStop of of.mark
        (min (readU16 mem (u16 (pb + 4))) (getFileEof of - of.mark)) with _ | k
    · rw [hstop] at hspec
      have ht := congrArg Prod.fst hspec
      have herr := congrArg Prod.snd hspec
      simp only at ht herr
      have hwin : min (readU16 mem (u16 (pb + 4))) (getFileEof of - of.mark) ≤
          readU16 mem (u16 (pb + 4)) := Nat.min_le_left _ _
      refine ⟨herr, ?_, hwin⟩
      rw [readU16_writeU16, ht]
      simp only [u16] at hreq ⊢
      omega
    · rw [hstop] at hspec
      have ht := congrArg Prod.fst hspec
      have herr := congrArg Prod.snd hspec
      simp only at ht herr
      have hk := firstNlStop_lt of _ _ _ hstop
      have hwin : k + 1 ≤ readU16 mem (u16 (pb + 4)) := by
        have := Nat.min_le_left (readU16 mem (u16 (pb + 4)))
          (getFileEof of - of.mark)
        omega
      refine ⟨herr, ?_, hwin⟩
      rw [readU16_writeU16, ht]
      simp only [u16]
      omega

/-- C4 counterexample: a READ of 2 bytes from a 1-byte file transfers one
byte (delivered to the data buffer and counted at +6) yet returns
EOF_ENCOUNTERED ($4C), not success, contradicting the claim that a READ
returns success whenever at least one byte is transferred.  The in-repo
test suite expects exactly this behavior (filing_test.cpp checks
trans_count 2 with ERR_EOF_ENCOUNTERED on a short read). -/
theorem C4_read_eof_counterexample :
    (readCall ofsC4 memC4 0).1 = 0x4C ∧
    readU16 (readCall ofsC4 memC4 0).2.2 (u16 6) = 1 ∧
    readU8 (readCall ofsC4 memC4 0).2.2 0x500 = 72 ∧
    (0x4C : Nat) ≠ 0x00 := by
  refine ⟨by decide, by decide, by decide, by decide⟩

theorem C4_read_semantics_amended_witness :
    (readCall ofsC4 memC4 0).1 =
      (readOutcome ofC4 (getFileEof ofC4) (readU16 memC4 (u16 4))).2 ∧
    readU16 (readCall ofsC4 memC4 0).2.2 (u16 6) =
      (readOutcome ofC4 (getFileEof ofC4) (readU16 memC4 (u16 4))).1 ∧
    (readOutcome ofC4 (getFileEof ofC4) (readU16 memC4 (u16 4))).1 ≤
      readU16 memC4 (u16 4) :=
  C4_read_semantics_amended ofsC4 memC4 0 ofC4 (by rfl) (by rfl) (by rfl)

/-- Call numbers outside the table (and other than $82) fall through
every branch of the dispatcher. -/
theorem mliDispatch_none {σ : Type}
    (rest : Nat → σ → Mem → Nat → Nat × σ × Mem) (dw tw : Nat)
    (st : σ) (mem : Mem) (cn pb : Nat)
    (hn : mliParamCountTable cn = none) (h82 : cn ≠ 0x82) :
    mliDispatch rest dw tw st mem cn pb = (0x01, st, mem) := by
  by_cases h0xC0 : cn = 0xC0
  · subst h0xC0
    exact absurd hn (by decide)
  by_cases h0xC1 : cn = 0xC1
  · subst h0xC1
    exact absurd hn (by decide)
  by_cases h0xC2 : cn = 0xC2
  · subst h0xC2
    exact absurd hn (by decide)
  by_cases h0xC3 : cn = 0xC3
  · subst h0xC3
    exact absurd hn (by decide)
  by_cases h0xC4 : cn = 0xC4
  · subst h0xC4
    exact absurd hn (by decide)
  by_cases h0xC5 : cn = 0xC5
  · subst h0xC5
    exact absurd hn (by decide)
  by_cases h0xC6 : cn = 0xC6
  · subst h0xC6
    exact absurd hn (by decide)
  by_cases h0xC7 : cn = 0xC7
  · subst h0xC7
    exact absurd hn (by decide)
  by_cases h0xC8 : cn = 0xC8
  · subst h0xC8
    exact absurd hn (by decide)
  by_cases h0xC9 : cn = 0xC9
  · subst h0xC9
    exact absurd hn (by decide)
  by_cases h0xCA : cn = 0xCA
  · subst h0xCA
    exact absurd hn (by decide)
  by_cases h0xCB : cn = 0xCB
  · subst h0xCB
    exact absurd hn (by decide)
  by_cases h0xCC : cn = 0xCC
  · subst h0xCC
    exact absurd hn (by decide)
  by_cases h0xCD : cn = 0xCD
  · subst h0xCD
    exact absurd hn (by decide)
  by_cases h0xCE : cn = 0xCE
  · subst h0xCE
    exact absurd hn (by decide)
  by_cases h0xCF : cn = 0xCF
  · subst h0xCF
    exact absurd hn (by decide)
  by_cases h0xD0 : cn = 0xD0
  · subst h0xD0
    exact absurd hn (by decide)
  by_cases h0xD1 : cn = 0xD1
  · subst h0xD1
    exact absurd hn (by decide)
  by_cases h0xD2 : cn = 0xD2
  · subst h0xD2
    exact absurd hn (by decide)
  by_cases h0xD3 : cn = 0xD3
  · subst h0xD3
    exact absurd hn (by decide)
  by_cases h0x40 : cn = 0x40
  · subst h0x40
    exact absurd hn (by decide)
  by_cases h0x41 : cn = 0x41
  · subst h0x41
    exact absurd hn (by decide)
  by_cases h0x80 : cn = 0x80
  · subst h0x80
    exact absurd hn (by decide)
  by_cases h0x81 : cn = 0x81
  · subst h0x81
    exact absurd hn (by decide)
  unfold mliDispatch
  rw [if_neg h0xC0, if_neg h0xC1, if_neg h0xC2, if_neg h0xC3, if_neg h0xC4, if_neg h0xC5, if_neg h0xC6, if_neg h0xC7, if_neg h0xC8, if_neg h0xC9, if_neg h0xCA, if_neg h0xCB, if_neg h0xCC, if_neg h0xCD, if_neg h0xCE, if_neg h0xCF, if_neg h0xD0, if_neg h0xD1, if_neg h0xD2, if_neg h0xD3, if_neg h0x40, if_neg h0x41, if_neg h0x80, if_neg h0x81, if_neg h82]

/-- A listed call whose parameter-count byte disagrees with the table
stops at the common prologue. -/
theorem mliDispatch_mismatch {σ : Type}
    (rest : Nat → σ → Mem → Nat → Nat × σ × Mem) (dw tw : Nat)
    (st : σ) (mem : Mem) (cn pb k : Nat)
    (hk : mliParamCountTable cn = some k) (hne : readU8 mem pb ≠ k) :
    mliDispatch rest dw tw st mem cn pb = (0x04, st, mem) := by
  by_cases h0xC0 : cn = 0xC0
  · subst h0xC0
    have hke : some 7 = some k := hk
    injection hke with hke
    subst hke
    show checkedCall 7 (rest 0xC0) st mem pb = (0x04, st, mem)
    unfold checkedCall
    rw [if_pos hne]
  by_cases h0xC1 : cn = 0xC1
  · subst h0xC1
    have hke : some 1 = some k := hk
    injection hke with hke
    subst hke
    show checkedCall 1 (rest 0xC1) st mem pb = (0x04, st, mem)
    unfold checkedCall
    rw [if_pos hne]
  by_cases h0xC2 : cn = 0xC2
  · subst h0xC2
    have hke : some 2 = some k := hk
    injection hke with hke
    subst hke
    show checkedCall 2 (rest 0xC2) st mem pb = (0x04, st, mem)
    unfold checkedCall
    rw [if_pos hne]
  by_cases h0xC3 : cn = 0xC3
  · subst h0xC3
    have hke : some 7 = some k := hk
    injection hke with hke
    subst hke
    show checkedCall 7 (rest 0xC3) st mem pb = (0x04, st, mem)
    unfold checkedCall
    rw [if_pos hne]
  by_cases h0xC4 : cn = 0xC4
  · subst h0xC4
    have hke : some 0x0A = some k := hk
    injection hke with hke
    subst hke
    show checkedCall 0x0A (rest 0xC4) st mem pb = (0x04, st, mem)
    unfold checkedCall
    rw [if_pos hne]
  by_cases h0xC5 : cn = 0xC5
  · subst h0xC5
    have hke : some 2 = some k := hk
    injection hke with hke
    subst hke
    show checkedCall 2 (rest 0xC5) st mem pb = (0x04, st, mem)
    unfold checkedCall
    rw [if_pos hne]
  by_cases h0xC6 : cn = 0xC6
  · subst h0xC6
    have hke : some 1 = some k := hk
    injection hke with hke
    subst hke
    show checkedCall 1 (rest 0xC6) st mem pb = (0x04, st, mem)
    unfold checkedCall
    rw [if_pos hne]
  by_cases h0xC7 : cn = 0xC7
  · subst h0xC7
    have hke : some 1 = some k := hk
    injection hke with hke
    subst hke
    show checkedCall 1 (rest 0xC7) st mem pb = (0x04, st, mem)
    unfold checkedCall
    rw [if_pos hne]
  by_cases h0xC8 : cn = 0xC8
  · subst h0xC8
    have hke : some 3 = some k := hk
    injection hke with hke
    subst hke
    show checkedCall 3 (rest 0xC8) st mem pb = (0x04, st, mem)
    unfold checkedCall
    rw [if_pos hne]
  by_cases h0xC9 : cn = 0xC9
  · subst h0xC9
    have hke : some 3 = some k := hk
    injection hke with hke
    subst hke
    show checkedCall 3 (rest 0xC9) st mem pb = (0x04, st, mem)
    unfold checkedCall
    rw [if_pos hne]
  by_cases h0xCA : cn = 0xCA
  · subst h0xCA
    have hke : some 4 = some k := hk
    injection hke with hke
    subst hke
    show checkedCall 4 (rest 0xCA) st mem pb = (0x04, st, mem)
    unfold checkedCall
    rw [if_pos hne]
  by_cases h0xCB : cn = 0xCB
  · subst h0xCB
    have hke : some 4 = some k := hk
    injection hke with hke
    subst hke
    show checkedCall 4 (rest 0xCB) st mem pb = (0x04, st, mem)
    unfold checkedCall
    rw [if_pos hne]
  by_cases h0xCC : cn = 0xCC
  · subst h0xCC
    have hke : some 1 = some k := hk
    injection hke with hke
    subst hke
    show checkedCall 1 (rest 0xCC) st mem pb = (0x04, st, mem)
    unfold checkedCall
    rw [if_pos hne]
  by_cases h0xCD : cn = 0xCD
  · subst h0xCD
    have hke : some 1 = some k := hk
    injection hke with hke
    subst hke
    show checkedCall 1 (rest 0xCD) st mem pb = (0x04, st, mem)
    unfold checkedCall
    rw [if_pos hne]
  by_cases h0xCE : cn = 0xCE
  · subst h0xCE
    have hke : some 2 = some k := hk
    injection hke with hke
    subst hke
    show checkedCall 2 (rest 0xCE) st mem pb = (0x04, st, mem)
    unfold checkedCall
    rw [if_pos hne]
  by_cases h0xCF : cn = 0xCF
  · subst h0xCF
    have hke : some 2 = some k := hk
    injection hke with hke
    subst hke
    show checkedCall 2 (rest 0xCF) st mem pb = (0x04, st, mem)
    unfold checkedCall
    rw [if_pos hne]
  by_cases h0xD0 : cn = 0xD0
  · subst h0xD0
    have hke : some 2 = some k := hk
    injection hke with hke
    subst hke
    show checkedCall 2 (rest 0xD0) st mem pb = (0x04, st, mem)
    unfold checkedCall
    rw [if_pos hne]
  by_cases h0xD1 : cn = 0xD1
  · subst h0xD1
    have hke : some 2 = some k := hk
    injection hke with hke
    subst hke
    show checkedCall 2 (rest 0xD1) st mem pb = (0x04, st, mem)
    unfold checkedCall
    rw [if_pos hne]
  by_cases h0xD2 : cn = 0xD2
  · subst h0xD2
    have hke : some 2 = some k := hk
    injection hke with hke
    subst hke
    show checkedCall 2 (rest 0xD2) st mem pb = (0x04, st, mem)
    unfold checkedCall
    rw [if_pos hne]
  by_cases h0xD3 : cn = 0xD3
  · subst h0xD3
    have hke : some 2 = some k := hk
    injection hke with hke
    subst hke
    show checkedCall 2 (rest 0xD3) st mem pb = (0x04, st, mem)
    unfold checkedCall
    rw [if_pos hne]
  by_cases h0x40 : cn = 0x40
  · subst h0x40
    have hke : some 2 = some k := hk
    injection hke with hke
    subst hke
    show checkedCall 2 (rest 0x40) st mem pb = (0x04, st, mem)
    unfold checkedCall
    rw [if_pos hne]
  by_cases h0x41 : cn = 0x41
  · subst h0x41
    have hke : some 1 = some k := hk
    injection hke with hke
    subst hke
    show checkedCall 1 (rest 0x41) st mem pb = (0x04, st, mem)
    unfold checkedCall
    rw [if_pos hne]
  by_cases h0x80 : cn = 0x80
  · subst h0x80
    have hke : some 3 = some k := hk
    injection hke with hke
    subst hke
    show checkedCall 3 (rest 0x80) st mem pb = (0x04, st, mem)
    unfold checkedCall
    rw [if_pos hne]
  by_cases h0x81 : cn = 0x81
  · subst h0x81
    have hke : some 3 = some k := hk
    injection hke with hke
    subst hke
    show checkedCall 3 (rest 0x81) st mem pb = (0x04, st, mem)
    unfold checkedCall
    rw [if_pos hne]
  exfalso
  unfold mliParamCountTable at hk
  rw [if_neg h0xC0, if_neg h0xC1, if_neg h0xC2, if_neg h0xC3, if_neg h0xC4, if_neg h0xC5, if_neg h0xC6, if_neg h0xC7, if_neg h0xC8, if_neg h0xC9, if_neg h0xCA, if_neg h0xCB, if_neg h0xCC, if_neg h0xCD, if_neg h0xCE, if_neg h0xCF, if_neg h0xD0, if_neg h0xD1, if_neg h0xD2, if_neg h0xD3, if_neg h0x40, if_neg h0x41, if_neg h0x80, if_neg h0x81] at hk
  exact Option.noConfusion hk

/-- C5: call numbers outside the table (other than GET_TIME) yield
BAD_CALL_NUMBER ($01) with no state or memory change; every listed call
whose parameter-count byte disagrees with the table returns
BAD_CALL_PARAM_COUNT ($04) with no state or memory change, whatever the
rest of the handler would do; GET_TIME ignores its parameter-count byte
and always returns $00. -/
theorem C5_dispatch_discipline {σ : Type}
    (rest : Nat → σ → Mem → Nat → Nat × σ × Mem) (dw tw : Nat)
    (st : σ) (mem : Mem) (cn pb : Nat) :
    (mliParamCountTable cn = none → cn ≠ 0x82 →
      mliDispatch rest dw tw st mem cn pb = (0x01, st, mem)) ∧
    (∀ k, mliParamCountTable cn = some k → readU8 mem pb ≠ k →
      mliDispatch rest dw tw st mem cn pb = (0x04, st, mem)) ∧
    (mliDispatch rest dw tw st mem 0x82 pb).1 = 0 :=
  ⟨fun hn h82 => mliDispatch_none rest dw tw st mem cn pb hn h82,
    fun k hk hne => mliDispatch_mismatch rest dw tw st mem cn pb k hk hne,
    rfl⟩

theorem C5_dispatch_discipline_witness :
    mliDispatch restW 0 0 () memW 0x55 0 = (0x01, (), memW) ∧
    mliDispatch restW 0 0 () memW 0xCA 0 = (0x04, (), memW) ∧
    (mliDispatch restW 0 0 () memW 0x82 0).1 = 0 := by
  have h1 := C5_dispatch_discipline restW 0 0 () memW 0x55 0
  have h2 := C5_dispatch_discipline restW 0 0 () memW 0xCA 0
  exact ⟨h1.1 (by rfl) (by decide), h2.2.1 4 (by rfl) (by decide), h2.2.2⟩

set_option maxHeartbeats 1000000 in
/-- C8: the codec round-trips.  Every 8-character string the parser
accepts is reproduced exactly by the formatter, and parsing the formatted
form of any byte succeeds and yields the byte with the two reserved bits
(mask $18) cleared, i.e. the byte AND $E7 = NOT $18 on uint8. -/
theorem C8_access_byte_round_trip :
    (∀ (s : List Nat) (b : Nat), parse_access_byte s = some b →
      format_access_byte b = s) ∧
    (∀ b : Nat, b < 256 →
      parse_access_byte (format_access_byte b) = some (b &&& (0xFF ^^^ 0x18))) := by
  constructor
  · intro s b h
    rcases s with _ | ⟨c0, s⟩
    · simp [parse_access_byte] at h
    rcases s with _ | ⟨c1, s⟩
    · simp [parse_access_byte] at h
    rcases s with _ | ⟨c2, s⟩
    · simp [parse_access_byte] at h
    rcases s with _ | ⟨c3, s⟩
    · simp [parse_access_byte] at h
    rcases s with _ | ⟨c4, s⟩
    · simp [parse_access_byte] at h
    rcases s with _ | ⟨c5, s⟩
    · simp [parse_access_byte] at h
    rcases s with _ | ⟨c6, s⟩
    · simp [parse_access_byte] at h
    rcases s with _ | ⟨c7, s⟩
    · simp [parse_access_byte] at h
    rcases s with _ | ⟨c8, s⟩
    · simp only [parse_access_byte, parseBit, Option.bind] at h
      split_ifs at h <;>
        first
          | exact Option.noConfusion h
          | (injection h with hb; subst hb; simp_all only [ne_eq, not_not];
             subst_vars; rfl)
    · simp [parse_access_byte] at h
  · decide

theorem C8_access_byte_round_trip_witness :
    format_access_byte 0xC3 = [100, 110, 45, 46, 46, 45, 119, 114] ∧
    parse_access_byte (format_access_byte 0xDB) = some (0xDB &&& (0xFF ^^^ 0x18)) := by
  have h := C8_access_byte_round_trip
  refine ⟨?_, h.2 0xDB (by decide)⟩
  exact h.1 [100, 110, 45, 46, 46, 45, 119, 114] 0xC3 (by decide)

theorem C7_set_prefix_amended_witness :
    (((setPrefixCall pfx7 mem7 0).1 = 0 ∧
        (setPrefixCall pfx7 mem7 0).2 = resolveFullPath (spInput mem7 0) pfx7) ∨
      ((setPrefixCall pfx7 mem7 0).1 = 0x40 ∧
        (setPrefixCall pfx7 mem7 0).2 = pfx7)) ∧
    ((setPrefixCall pfx7 mem7 0).1 = 0 ↔
      (¬(spInput mem7 0 ≠ [] ∧ (spInput mem7 0).headD 0 ≠ 47 ∧ pfx7 = []) ∧
        resolveFullPath (spInput mem7 0) pfx7 ≠ [] ∧
        isValidPathname (resolveFullPath (spInput mem7 0) pfx7) 64 = true)) :=
  C7_set_prefix_amended pfx7 mem7 0 (by rfl) (by decide)

end P8Emu













